import Mathlib

set_option autoImplicit false

/-!
Shallow embedding of the bounded TTL cache, the performance monitor and the
stock-data fetch orchestrator of the Personal Finance Tracker repository.

Times and durations are modelled as `Int` (JavaScript `Date.now()` values and
millisecond durations, which may be negative).  JavaScript `Map`s are modelled
as association lists in insertion order: `Map.set` updates in place when the
key is present and appends otherwise, `Map.delete` removes the entry, and
`Map.keys().next().value` is the key of the first entry.  `null`/`undefined`
results are modelled with `Option`, thrown exceptions with `Except String`
carrying the error message.
-/

/-- Association-list lookup, mirroring JavaScript `Map.get` (`none` = `undefined`). -/
def mlookup {α : Type} : List (String × α) → String → Option α
  | [], _ => none
  | (k', v) :: rest, k => if k' = k then some v else mlookup rest k

/-- JavaScript `Map.has`. -/
def mhas {α : Type} (m : List (String × α)) (k : String) : Bool :=
  (mlookup m k).isSome

/-- JavaScript `Map.set`: update in place when the key is present (keeping its
position in insertion order), append otherwise. -/
def mset {α : Type} : List (String × α) → String → α → List (String × α)
  | [], k, v => [(k, v)]
  | (k', v') :: rest, k, v =>
    if k' = k then (k, v) :: rest else (k', v') :: mset rest k v

/-- JavaScript `Map.delete`: remove the (first) entry with the given key. -/
def merase {α : Type} : List (String × α) → String → List (String × α)
  | [], _ => []
  | (k', v') :: rest, k => if k' = k then rest else (k', v') :: merase rest k

/-- State of a `CacheManager` instance: the `cache` and `timestamps` maps, the
hit/miss counters and the configured bounds. -/
structure CacheManager (α : Type) where
  cache : List (String × α)
  timestamps : List (String × Int)
  hitCount : Nat
  missCount : Nat
  maxSize : Nat
  defaultDuration : Int

namespace CacheManager

/-- `CacheManager.delete(key)`: if the cache has the key, remove it from both
maps and return `true`; otherwise return `false`. -/
def delete {α : Type} (c : CacheManager α) (key : String) : Bool × CacheManager α :=
  if mhas c.cache key then
    (true, { c with cache := merase c.cache key, timestamps := merase c.timestamps key })
  else
    (false, c)

/-- One round of the `while` loop of `CacheManager.enforceMaxSize`, with fuel
for termination: while `cache.size >= maxSize`, delete the oldest-inserted key;
break when the map is empty or its first key is falsy (the empty string). -/
def enforceMaxSizeAux {α : Type} : Nat → CacheManager α → CacheManager α
  | 0, c => c
  | Nat.succ fuel, c =>
    if c.maxSize ≤ c.cache.length then
      match c.cache.head? with
      | some kv => if kv.1 = "" then c else enforceMaxSizeAux fuel (c.delete kv.1).2
      | none => c
    else
      c

/-- `CacheManager.enforceMaxSize()`.  The fuel `cache.length + 1` dominates the
number of loop iterations since every iteration deletes the head entry. -/
def enforceMaxSize {α : Type} (c : CacheManager α) : CacheManager α :=
  enforceMaxSizeAux (c.cache.length + 1) c

/-- `CacheManager.set(key, value, duration)`: reject a falsy key or an
`undefined` value, otherwise evict down below `maxSize` and store the value
with expiry `Date.now() + duration` in both maps. -/
def set {α : Type} (c : CacheManager α) (key : String) (value : Option α)
    (now : Int) (duration : Int) : Bool × CacheManager α :=
  match value with
  | none => (false, c)
  | some v =>
    if key = "" then
      (false, c)
    else
      let c1 := enforceMaxSize c
      (true, { c1 with
                 cache := mset c1.cache key v,
                 timestamps := mset c1.timestamps key (now + duration) })

/-- `CacheManager.get(key)`: a falsy or absent key is a miss; a present key is
a hit exactly when its timestamp is truthy and strictly in the future,
otherwise the entry is deleted and a miss is recorded. -/
def get {α : Type} (c : CacheManager α) (key : String) (now : Int) :
    Option α × CacheManager α :=
  if key = "" ∨ mhas c.cache key = false then
    (none, { c with missCount := c.missCount + 1 })
  else
    match mlookup c.timestamps key with
    | some e =>
      if e ≠ 0 ∧ now < e then
        (mlookup c.cache key, { c with hitCount := c.hitCount + 1 })
      else
        let c1 := (c.delete key).2
        (none, { c1 with missCount := c1.missCount + 1 })
    | none =>
      let c1 := (c.delete key).2
      (none, { c1 with missCount := c1.missCount + 1 })

/-- `CacheManager.clear()`. -/
def clear {α : Type} (c : CacheManager α) : CacheManager α :=
  { c with cache := [], timestamps := [], hitCount := 0, missCount := 0 }

/-- `CacheManager.cleanup()`: scan the timestamps map and delete every entry
whose expiry has passed. -/
def cleanup {α : Type} (c : CacheManager α) (now : Int) : CacheManager α :=
  c.timestamps.foldl (fun st kv => if kv.2 ≤ now then (st.delete kv.1).2 else st) c

/-- `CacheManager.has(key)`: `this.get(key) !== null`, with `get`'s metric
side effects. -/
def has {α : Type} (c : CacheManager α) (key : String) (now : Int) :
    Bool × CacheManager α :=
  let r := c.get key now
  (r.1.isSome, r.2)

end CacheManager

/-- A fresh `CacheManager` with the given `maxSize` (constructor defaults:
empty maps, zero counters, default duration 300000ms). -/
def emptyCache (α : Type) (m : Nat) : CacheManager α :=
  { cache := [], timestamps := [], hitCount := 0, missCount := 0,
    maxSize := m, defaultDuration := 300000 }


/-! ### Association-map lemmas -/

theorem mlookup_isSome_iff {α : Type} (m : List (String × α)) (k : String) :
    (mlookup m k).isSome = true ↔ k ∈ m.map Prod.fst := by
  induction m with
  | nil => simp [mlookup]
  | cons p rest ih =>
    obtain ⟨k', v⟩ := p
    by_cases h : k' = k
    · subst h
      simp [mlookup]
    · simp only [mlookup, if_neg h, List.map_cons, List.mem_cons, ih]
      constructor
      · exact fun hm => Or.inr hm
      · rintro (hm | hm)
        · exact absurd hm.symm h
        · exact hm

theorem mhas_iff_mem {α : Type} (m : List (String × α)) (k : String) :
    mhas m k = true ↔ k ∈ m.map Prod.fst := by
  rw [mhas, mlookup_isSome_iff]

theorem mlookup_eq_none_iff {α : Type} (m : List (String × α)) (k : String) :
    mlookup m k = none ↔ k ∉ m.map Prod.fst := by
  rw [← mlookup_isSome_iff]
  cases hm : mlookup m k <;> simp

theorem mlookup_mem {α : Type} {m : List (String × α)} {k : String} {v : α}
    (h : mlookup m k = some v) : (k, v) ∈ m := by
  induction m with
  | nil => exact Option.noConfusion h
  | cons p rest ih =>
    obtain ⟨k', v'⟩ := p
    by_cases hk : k' = k
    · subst hk
      rw [mlookup, if_pos rfl] at h
      rw [Option.some_inj] at h
      subst h
      exact List.mem_cons_self _ _
    · rw [mlookup, if_neg hk] at h
      exact List.mem_cons_of_mem _ (ih h)

theorem mlookup_mset_self {α : Type} (m : List (String × α)) (k : String) (v : α) :
    mlookup (mset m k v) k = some v := by
  induction m with
  | nil => simp [mset, mlookup]
  | cons p rest ih =>
    obtain ⟨k', v'⟩ := p
    by_cases h : k' = k
    · rw [mset, if_pos h, mlookup, if_pos rfl]
    · rw [mset, if_neg h, mlookup, if_neg h]
      exact ih

theorem mlookup_mset_ne {α : Type} (m : List (String × α)) (k k2 : String) (v : α)
    (h : k2 ≠ k) : mlookup (mset m k v) k2 = mlookup m k2 := by
  induction m with
  | nil => simp [mset, mlookup, Ne.symm h]
  | cons p rest ih =>
    obtain ⟨k', v'⟩ := p
    by_cases hk : k' = k
    · subst hk
      rw [mset, if_pos rfl, mlookup, if_neg (Ne.symm h), mlookup, if_neg (Ne.symm h)]
    · by_cases hk2 : k' = k2
      · rw [mset, if_neg hk, mlookup, if_pos hk2, mlookup, if_pos hk2]
      · rw [mset, if_neg hk, mlookup, if_neg hk2, mlookup, if_neg hk2]
        exact ih

theorem map_fst_mset_mem {α : Type} (m : List (String × α)) (k : String) (v : α)
    (h : k ∈ m.map Prod.fst) : (mset m k v).map Prod.fst = m.map Prod.fst := by
  induction m with
  | nil => simp at h
  | cons p rest ih =>
    obtain ⟨k', v'⟩ := p
    by_cases hk : k' = k
    · rw [mset, if_pos hk, List.map_cons, List.map_cons, hk]
    · rw [List.map_cons] at h
      have h2 : k ∈ rest.map Prod.fst := by
        rcases List.mem_cons.mp h with he | hm
        · exact absurd he.symm hk
        · exact hm
      rw [mset, if_neg hk, List.map_cons, List.map_cons, ih h2]

theorem map_fst_mset_not_mem {α : Type} (m : List (String × α)) (k : String) (v : α)
    (h : k ∉ m.map Prod.fst) : (mset m k v).map Prod.fst = m.map Prod.fst ++ [k] := by
  induction m with
  | nil => simp [mset]
  | cons p rest ih =>
    obtain ⟨k', v'⟩ := p
    rw [List.map_cons] at h
    have h1 : k ≠ k' := fun e => h (e ▸ List.mem_cons_self _ _)
    have h2 : k ∉ rest.map Prod.fst := fun e => h (List.mem_cons_of_mem _ e)
    rw [mset, if_neg (Ne.symm h1), List.map_cons, ih h2, List.map_cons, List.cons_append]

theorem map_fst_merase {α : Type} (m : List (String × α)) (k : String) :
    (merase m k).map Prod.fst = (m.map Prod.fst).erase k := by
  induction m with
  | nil => simp [merase]
  | cons p rest ih =>
    obtain ⟨k', v'⟩ := p
    by_cases h : k' = k
    · subst h
      rw [merase, if_pos rfl, List.map_cons, List.erase_cons_head]
    · rw [merase, if_neg h, List.map_cons, List.map_cons, ih,
        List.erase_cons_tail (by simpa using h)]

theorem mlookup_merase_ne {α : Type} (m : List (String × α)) (k k2 : String)
    (h : k2 ≠ k) : mlookup (merase m k) k2 = mlookup m k2 := by
  induction m with
  | nil => rw [merase]
  | cons p rest ih =>
    obtain ⟨k', v'⟩ := p
    by_cases hk : k' = k
    · subst hk
      rw [merase, if_pos rfl, mlookup, if_neg (Ne.symm h)]
    · by_cases hk2 : k' = k2
      · rw [merase, if_neg hk, mlookup, if_pos hk2, mlookup, if_pos hk2]
      · rw [merase, if_neg hk, mlookup, if_neg hk2, mlookup, if_neg hk2]
        exact ih

theorem mlookup_merase_self {α : Type} (m : List (String × α)) (k : String)
    (hnodup : (m.map Prod.fst).Nodup) : mlookup (merase m k) k = none := by
  rw [mlookup_eq_none_iff, map_fst_merase]
  exact hnodup.not_mem_erase

theorem length_merase_of_mem {α : Type} (m : List (String × α)) (k : String)
    (h : k ∈ m.map Prod.fst) : (merase m k).length + 1 = m.length := by
  have hmap := map_fst_merase m k
  have hlen : ((m.map Prod.fst).erase k).length = (m.map Prod.fst).length - 1 :=
    List.length_erase_of_mem h
  have hpos : 0 < (m.map Prod.fst).length := List.length_pos.mpr (List.ne_nil_of_mem h)
  have e1 : (merase m k).length = ((merase m k).map Prod.fst).length :=
    (List.length_map _ _).symm
  have e2 : (m.map Prod.fst).length = m.length := List.length_map _ _
  rw [e1, hmap, hlen]
  omega

theorem nodup_map_fst_mset {α : Type} (m : List (String × α)) (k : String) (v : α)
    (h : (m.map Prod.fst).Nodup) : ((mset m k v).map Prod.fst).Nodup := by
  by_cases hm : k ∈ m.map Prod.fst
  · rw [map_fst_mset_mem m k v hm]
    exact h
  · rw [map_fst_mset_not_mem m k v hm]
    refine List.Nodup.append h (List.nodup_singleton k) ?_
    intro a ha hb
    rw [List.mem_singleton] at hb
    subst hb
    exact hm ha

theorem nodup_map_fst_merase {α : Type} (m : List (String × α)) (k : String)
    (h : (m.map Prod.fst).Nodup) : ((merase m k).map Prod.fst).Nodup := by
  rw [map_fst_merase]
  exact h.erase k

/-! ### CacheManager helper lemmas -/

namespace CacheManager

theorem delete_maxSize {α : Type} (c : CacheManager α) (key : String) :
    (c.delete key).2.maxSize = c.maxSize := by
  rw [delete]
  by_cases h : mhas c.cache key = true <;> simp [h]

theorem delete_counters {α : Type} (c : CacheManager α) (key : String) :
    (c.delete key).2.hitCount = c.hitCount ∧ (c.delete key).2.missCount = c.missCount := by
  rw [delete]
  by_cases h : mhas c.cache key = true <;> simp [h]

theorem get_counter_step {α : Type} (c : CacheManager α) (key : String) (now : Int) :
    (c.get key now).2.hitCount + (c.get key now).2.missCount
        = c.hitCount + c.missCount + 1 ∧
    ((c.get key now).2.hitCount = c.hitCount ∨ (c.get key now).2.missCount = c.missCount) := by
  rw [get]
  by_cases hcond : key = "" ∨ mhas c.cache key = false
  · simp [hcond]
    omega
  · rw [if_neg hcond]
    cases hts : mlookup c.timestamps key with
    | none =>
      have hd := delete_counters c key
      simp [hd.1, hd.2]
      omega
    | some e =>
      by_cases hlive : e ≠ 0 ∧ now < e
      · simp [hlive]
        omega
      · have hd := delete_counters c key
        simp [hlive, hd.1, hd.2]
        omega

theorem enforceMaxSizeAux_of_lt {α : Type} (fuel : Nat) (c : CacheManager α)
    (h : c.cache.length < c.maxSize) : enforceMaxSizeAux fuel c = c := by
  cases fuel with
  | zero => rfl
  | succ n =>
    rw [enforceMaxSizeAux, if_neg (by omega)]

theorem enforceMaxSize_of_lt {α : Type} (c : CacheManager α)
    (h : c.cache.length < c.maxSize) : c.enforceMaxSize = c :=
  enforceMaxSizeAux_of_lt _ c h

theorem delete_head {α : Type} (c : CacheManager α) (p : String × α)
    (rest : List (String × α)) (hc : c.cache = p :: rest) :
    (c.delete p.1).2.cache = merase c.cache p.1 ∧
    (c.delete p.1).2.timestamps = merase c.timestamps p.1 ∧
    merase c.cache p.1 = rest := by
  have hhas : mhas c.cache p.1 = true := by
    rw [hc, mhas, mlookup, if_pos rfl]
    rfl
  rw [delete, if_pos hhas]
  refine ⟨rfl, rfl, ?_⟩
  rw [hc, merase, if_pos rfl]

theorem enforce_eq_delete_head {α : Type} (c : CacheManager α) (p : String × α)
    (rest : List (String × α)) (hc : c.cache = p :: rest) (hne : p.1 ≠ "")
    (hlen : c.cache.length = c.maxSize) :
    c.enforceMaxSize = (c.delete p.1).2 ∧ (c.delete p.1).2.cache = rest := by
  have hd := delete_head c p rest hc
  have hrest : (c.delete p.1).2.cache = rest := by rw [hd.1, hd.2.2]
  have hm1 : 1 ≤ c.maxSize := by
    rw [← hlen, hc]
    simp
  refine ⟨?_, hrest⟩
  rw [enforceMaxSize, enforceMaxSizeAux, if_pos (le_of_eq hlen.symm), hc]
  simp only [List.head?_cons, hne, if_false]
  have hfits : (c.delete p.1).2.cache.length < (c.delete p.1).2.maxSize := by
    rw [hrest, delete_maxSize]
    rw [hc] at hlen
    simp at hlen
    omega
  exact enforceMaxSizeAux_of_lt _ _ hfits

end CacheManager

/-- The `cache` and `timestamps` maps hold exactly the same keys (in the same
insertion order). -/
def keysAligned {α : Type} (c : CacheManager α) : Prop :=
  c.cache.map Prod.fst = c.timestamps.map Prod.fst

namespace CacheManager

theorem keysAligned_delete {α : Type} (c : CacheManager α) (key : String)
    (h : keysAligned c) : keysAligned (c.delete key).2 := by
  rw [delete]
  by_cases hhas : mhas c.cache key = true
  · simp only [hhas, if_true]
    show (merase c.cache key).map Prod.fst = (merase c.timestamps key).map Prod.fst
    rw [map_fst_merase, map_fst_merase, h]
  · simp only [hhas]
    simpa using h

theorem keysAligned_enforceMaxSizeAux {α : Type} (fuel : Nat) (c : CacheManager α)
    (h : keysAligned c) : keysAligned (enforceMaxSizeAux fuel c) := by
  induction fuel generalizing c with
  | zero => exact h
  | succ n ih =>
    rw [enforceMaxSizeAux]
    by_cases hsz : c.maxSize ≤ c.cache.length
    · rw [if_pos hsz]
      cases hh : c.cache.head? with
      | none => exact h
      | some kv =>
        by_cases hk : kv.1 = ""
        · simp only [hk, if_true]
          exact h
        · simp only [hk, if_false]
          exact ih _ (keysAligned_delete c kv.1 h)
    · rw [if_neg hsz]
      exact h

theorem keysAligned_enforceMaxSize {α : Type} (c : CacheManager α)
    (h : keysAligned c) : keysAligned c.enforceMaxSize :=
  keysAligned_enforceMaxSizeAux _ c h

theorem keysAligned_set {α : Type} (c : CacheManager α) (key : String)
    (value : Option α) (now duration : Int) (h : keysAligned c) :
    keysAligned (c.set key value now duration).2 := by
  cases value with
  | none => exact h
  | some v =>
    rw [set]
    by_cases hk : key = ""
    · rw [if_pos hk]
      exact h
    · rw [if_neg hk]
      have h1 : keysAligned c.enforceMaxSize := keysAligned_enforceMaxSize c h
      show (mset c.enforceMaxSize.cache key v).map Prod.fst
          = (mset c.enforceMaxSize.timestamps key (now + duration)).map Prod.fst
      by_cases hmem : key ∈ c.enforceMaxSize.cache.map Prod.fst
      · rw [map_fst_mset_mem _ _ _ hmem, map_fst_mset_mem _ _ _ (h1 ▸ hmem), h1]
      · rw [map_fst_mset_not_mem _ _ _ hmem,
          map_fst_mset_not_mem _ _ _ (fun hx => hmem (h1 ▸ hx)), h1]

theorem get_miss_absent {α : Type} (c : CacheManager α) (key : String) (now : Int)
    (hcond : key = "" ∨ mhas c.cache key = false) :
    c.get key now = (none, { c with missCount := c.missCount + 1 }) := by
  rw [get, if_pos hcond]

theorem get_hit {α : Type} (c : CacheManager α) (key : String) (now e : Int)
    (hcond : ¬(key = "" ∨ mhas c.cache key = false))
    (hts : mlookup c.timestamps key = some e) (hlive : e ≠ 0 ∧ now < e) :
    c.get key now = (mlookup c.cache key, { c with hitCount := c.hitCount + 1 }) := by
  rw [get, if_neg hcond]
  simp only [hts]
  rw [if_pos hlive]

theorem get_expired {α : Type} (c : CacheManager α) (key : String) (now e : Int)
    (hcond : ¬(key = "" ∨ mhas c.cache key = false))
    (hts : mlookup c.timestamps key = some e) (hnotlive : ¬(e ≠ 0 ∧ now < e)) :
    c.get key now
      = (none, { (c.delete key).2 with missCount := (c.delete key).2.missCount + 1 }) := by
  rw [get, if_neg hcond]
  simp only [hts]
  rw [if_neg hnotlive]

theorem get_no_timestamp {α : Type} (c : CacheManager α) (key : String) (now : Int)
    (hcond : ¬(key = "" ∨ mhas c.cache key = false))
    (hts : mlookup c.timestamps key = none) :
    c.get key now
      = (none, { (c.delete key).2 with missCount := (c.delete key).2.missCount + 1 }) := by
  rw [get, if_neg hcond]
  simp only [hts]

theorem keysAligned_get {α : Type} (c : CacheManager α) (key : String) (now : Int)
    (h : keysAligned c) : keysAligned (c.get key now).2 := by
  by_cases hcond : key = "" ∨ mhas c.cache key = false
  · rw [get_miss_absent c key now hcond]
    exact h
  · cases hts : mlookup c.timestamps key with
    | none =>
      rw [get_no_timestamp c key now hcond hts]
      exact keysAligned_delete c key h
    | some e =>
      by_cases hlive : e ≠ 0 ∧ now < e
      · rw [get_hit c key now e hcond hts hlive]
        exact h
      · rw [get_expired c key now e hcond hts hlive]
        exact keysAligned_delete c key h

theorem keysAligned_clear {α : Type} (c : CacheManager α) : keysAligned c.clear :=
  rfl

theorem keysAligned_cleanup {α : Type} (c : CacheManager α) (now : Int)
    (h : keysAligned c) : keysAligned (c.cleanup now) := by
  rw [cleanup]
  generalize c.timestamps = l
  induction l generalizing c with
  | nil => exact h
  | cons kv rest ih =>
    rw [List.foldl_cons]
    by_cases hkv : kv.2 ≤ now
    · rw [if_pos hkv]
      exact ih _ (keysAligned_delete c kv.1 h)
    · rw [if_neg hkv]
      exact ih _ h

theorem nodup_cache_delete {α : Type} (c : CacheManager α) (key : String)
    (h : (c.cache.map Prod.fst).Nodup) :
    ((c.delete key).2.cache.map Prod.fst).Nodup := by
  rw [delete]
  by_cases hhas : mhas c.cache key = true
  · simp only [hhas, if_true]
    exact nodup_map_fst_merase _ _ h
  · simpa [hhas] using h

theorem nodup_cache_enforceMaxSizeAux {α : Type} (fuel : Nat) (c : CacheManager α)
    (h : (c.cache.map Prod.fst).Nodup) :
    ((enforceMaxSizeAux fuel c).cache.map Prod.fst).Nodup := by
  induction fuel generalizing c with
  | zero => exact h
  | succ n ih =>
    rw [enforceMaxSizeAux]
    by_cases hsz : c.maxSize ≤ c.cache.length
    · rw [if_pos hsz]
      cases hh : c.cache.head? with
      | none => exact h
      | some kv =>
        by_cases hk : kv.1 = ""
        · simp only [hk, if_true]
          exact h
        · simp only [hk, if_false]
          exact ih _ (nodup_cache_delete c kv.1 h)
    · rw [if_neg hsz]
      exact h

theorem nodup_cache_set {α : Type} (c : CacheManager α) (key : String)
    (value : Option α) (now duration : Int) (h : (c.cache.map Prod.fst).Nodup) :
    ((c.set key value now duration).2.cache.map Prod.fst).Nodup := by
  cases value with
  | none => exact h
  | some v =>
    rw [set]
    by_cases hk : key = ""
    · rw [if_pos hk]
      exact h
    · rw [if_neg hk]
      exact nodup_map_fst_mset _ _ _ (nodup_cache_enforceMaxSizeAux _ c h)

theorem nodup_ts_delete {α : Type} (c : CacheManager α) (key : String)
    (h : (c.timestamps.map Prod.fst).Nodup) :
    ((c.delete key).2.timestamps.map Prod.fst).Nodup := by
  rw [delete]
  by_cases hhas : mhas c.cache key = true
  · simp only [hhas, if_true]
    exact nodup_map_fst_merase _ _ h
  · simpa [hhas] using h

theorem nodup_ts_enforceMaxSizeAux {α : Type} (fuel : Nat) (c : CacheManager α)
    (h : (c.timestamps.map Prod.fst).Nodup) :
    ((enforceMaxSizeAux fuel c).timestamps.map Prod.fst).Nodup := by
  induction fuel generalizing c with
  | zero => exact h
  | succ n ih =>
    rw [enforceMaxSizeAux]
    by_cases hsz : c.maxSize ≤ c.cache.length
    · rw [if_pos hsz]
      cases hh : c.cache.head? with
      | none => exact h
      | some kv =>
        by_cases hk : kv.1 = ""
        · simp only [hk, if_true]
          exact h
        · simp only [hk, if_false]
          exact ih _ (nodup_ts_delete c kv.1 h)
    · rw [if_neg hsz]
      exact h

theorem nodup_ts_set {α : Type} (c : CacheManager α) (key : String)
    (value : Option α) (now duration : Int) (h : (c.timestamps.map Prod.fst).Nodup) :
    ((c.set key value now duration).2.timestamps.map Prod.fst).Nodup := by
  cases value with
  | none => exact h
  | some v =>
    rw [set]
    by_cases hk : key = ""
    · rw [if_pos hk]
      exact h
    · rw [if_neg hk]
      exact nodup_map_fst_mset _ _ _ (nodup_ts_enforceMaxSizeAux _ c h)

end CacheManager

/-! ### Claims about CacheManager -/

/-- C7: `get(key)` returns notFound on a missing key; on a present-but-expired
key it deletes the entry first, then returns notFound and records a miss; on a
present-and-live key it records a hit and returns the stored value; and every
`get` call increments exactly one of the hit counter or the miss counter by
exactly one.  Hypotheses: the cache holds no empty-string key and no duplicate
keys (as in every state reachable through `set`), and `Date.now()` is
non-negative. -/
theorem claim_C7 {α : Type} (c : CacheManager α) (key : String) (now : Int)
    (hkeys : ∀ p ∈ c.cache, p.1 ≠ "")
    (hnodup : (c.cache.map Prod.fst).Nodup)
    (hnow : 0 ≤ now) :
    (mlookup c.cache key = none →
       (c.get key now).1 = none ∧
       (c.get key now).2 = { c with missCount := c.missCount + 1 }) ∧
    (∀ v e, mlookup c.cache key = some v → mlookup c.timestamps key = some e →
       e ≤ now →
       (c.get key now).1 = none ∧
       (c.get key now).2.cache = merase c.cache key ∧
       (c.get key now).2.timestamps = merase c.timestamps key ∧
       mlookup (c.get key now).2.cache key = none ∧
       (c.get key now).2.missCount = c.missCount + 1 ∧
       (c.get key now).2.hitCount = c.hitCount) ∧
    (∀ v e, mlookup c.cache key = some v → mlookup c.timestamps key = some e →
       now < e →
       (c.get key now).1 = some v ∧
       (c.get key now).2 = { c with hitCount := c.hitCount + 1 }) ∧
    ((c.get key now).2.hitCount + (c.get key now).2.missCount
        = c.hitCount + c.missCount + 1 ∧
     ((c.get key now).2.hitCount = c.hitCount ∨
        (c.get key now).2.missCount = c.missCount)) := by
  refine ⟨?_, ?_, ?_, CacheManager.get_counter_step c key now⟩
  · intro habs
    have hcond : key = "" ∨ mhas c.cache key = false := by
      right
      rw [mhas, habs]
      rfl
    rw [CacheManager.get_miss_absent c key now hcond]
    exact ⟨rfl, rfl⟩
  · intro v e hv hts hle
    have hkne : key ≠ "" := hkeys _ (mlookup_mem hv)
    have hcond : ¬(key = "" ∨ mhas c.cache key = false) := by
      rintro (h1 | h1)
      · exact hkne h1
      · rw [mhas, hv] at h1
        exact Bool.noConfusion h1
    have hnotlive : ¬(e ≠ 0 ∧ now < e) := fun hl => absurd hl.2 (not_lt.mpr hle)
    rw [CacheManager.get_expired c key now e hcond hts hnotlive]
    have hhas : mhas c.cache key = true := by
      rw [mhas, hv]
      rfl
    rw [CacheManager.delete, if_pos hhas]
    refine ⟨rfl, rfl, rfl, ?_, rfl, rfl⟩
    exact mlookup_merase_self c.cache key hnodup
  · intro v e hv hts hlt
    have hkne : key ≠ "" := hkeys _ (mlookup_mem hv)
    have hcond : ¬(key = "" ∨ mhas c.cache key = false) := by
      rintro (h1 | h1)
      · exact hkne h1
      · rw [mhas, hv] at h1
        exact Bool.noConfusion h1
    have hlive : e ≠ 0 ∧ now < e := ⟨ne_of_gt (lt_of_le_of_lt hnow hlt), hlt⟩
    rw [CacheManager.get_hit c key now e hcond hts hlive]
    exact ⟨hv, rfl⟩

/-- C7 witness: a single-entry cache `{a ↦ 5, expiry 10}` read at time 3 is a
live hit returning the stored value. -/
theorem claim_C7_witness :
    ((⟨[("a", 5)], [("a", 10)], 0, 0, 100, 300000⟩ : CacheManager Nat).get "a" 3).1
      = some 5 :=
  ((claim_C7 (⟨[("a", 5)], [("a", 10)], 0, 0, 100, 300000⟩ : CacheManager Nat)
      "a" 3 (by decide) (by decide) (by decide)).2.2.1 5 10 (by decide) (by decide)
      (by decide)).1

/-- C8: `has(key)` returns true exactly when `get(key)` in the same state
returns a value rather than notFound, performs the same state update as that
`get`, and updates the hit/miss counters exactly once (the single update of
the underlying `get` path, never doubled). -/
theorem claim_C8 {α : Type} (c : CacheManager α) (key : String) (now : Int) :
    ((c.has key now).1 = true ↔ (c.get key now).1 ≠ none) ∧
    (c.has key now).2 = (c.get key now).2 ∧
    (c.has key now).2.hitCount + (c.has key now).2.missCount
      = c.hitCount + c.missCount + 1 := by
  refine ⟨?_, rfl, (CacheManager.get_counter_step c key now).1⟩
  rw [CacheManager.has]
  exact Option.isSome_iff_ne_none

/-- C9: every cache operation (`set`, `get`, `delete`, `clear`, `cleanup`,
`enforceMaxSize`) keeps the keys of the value map and the keys of the
expiry-timestamp map identical: no entry ever has a value without an expiry or
an expiry without a value. -/
theorem claim_C9 {α : Type} (c : CacheManager α) (h : keysAligned c) :
    (∀ key value now duration, keysAligned (c.set key value now duration).2) ∧
    (∀ key now, keysAligned (c.get key now).2) ∧
    (∀ key, keysAligned (c.delete key).2) ∧
    keysAligned c.clear ∧
    (∀ now, keysAligned (c.cleanup now)) ∧
    keysAligned c.enforceMaxSize :=
  ⟨fun key value now duration => CacheManager.keysAligned_set c key value now duration h,
   fun key now => CacheManager.keysAligned_get c key now h,
   fun key => CacheManager.keysAligned_delete c key h,
   CacheManager.keysAligned_clear c,
   fun now => CacheManager.keysAligned_cleanup c now h,
   CacheManager.keysAligned_enforceMaxSize c h⟩

/-- C9 witness: on an aligned two-entry cache, deleting a key keeps the value
map and timestamp map on exactly the same keys. -/
theorem claim_C9_witness :
    keysAligned ((⟨[("a", 1), ("b", 2)], [("a", 7), ("b", 9)], 0, 0, 100, 300000⟩ :
      CacheManager Nat).delete "a").2 :=
  (claim_C9 (⟨[("a", 1), ("b", 2)], [("a", 7), ("b", 9)], 0, 0, 100, 300000⟩ :
      CacheManager Nat) rfl).2.2.1 "a"

/-- C10: for every non-empty key, defined value and duration `d ≤ 0`,
`set(key, value, d)` succeeds (returns true and inserts the entry), but a
subsequent `get(key)` at the same or a later time returns notFound, records a
miss, and deletes the entry: durations are not validated, so non-positive
durations store entries that are born expired.  (Nodup hypotheses: states
reachable through `set` never hold duplicate keys.) -/
theorem claim_C10 {α : Type} (c : CacheManager α) (key : String) (v : α)
    (now t duration : Int) (hkey : key ≠ "") (hd : duration ≤ 0) (ht : now ≤ t)
    (hnodupc : (c.cache.map Prod.fst).Nodup)
    (hnodupt : (c.timestamps.map Prod.fst).Nodup) :
    (c.set key (some v) now duration).1 = true ∧
    mlookup (c.set key (some v) now duration).2.cache key = some v ∧
    mlookup (c.set key (some v) now duration).2.timestamps key = some (now + duration) ∧
    ((c.set key (some v) now duration).2.get key t).1 = none ∧
    ((c.set key (some v) now duration).2.get key t).2.missCount
      = (c.set key (some v) now duration).2.missCount + 1 ∧
    ((c.set key (some v) now duration).2.get key t).2.hitCount
      = (c.set key (some v) now duration).2.hitCount ∧
    mlookup ((c.set key (some v) now duration).2.get key t).2.cache key = none ∧
    mlookup ((c.set key (some v) now duration).2.get key t).2.timestamps key = none := by
  have hset2 : (c.set key (some v) now duration).2
      = { c.enforceMaxSize with
            cache := mset c.enforceMaxSize.cache key v,
            timestamps := mset c.enforceMaxSize.timestamps key (now + duration) } := by
    rw [CacheManager.set, if_neg hkey]
  have hs1 : (c.set key (some v) now duration).1 = true := by
    rw [CacheManager.set, if_neg hkey]
  have hlookc : mlookup (c.set key (some v) now duration).2.cache key = some v := by
    rw [hset2]
    exact mlookup_mset_self _ _ _
  have hlookt : mlookup (c.set key (some v) now duration).2.timestamps key
      = some (now + duration) := by
    rw [hset2]
    exact mlookup_mset_self _ _ _
  have hnodupc2 : ((c.set key (some v) now duration).2.cache.map Prod.fst).Nodup :=
    CacheManager.nodup_cache_set c key (some v) now duration hnodupc
  have hnodupt2 : ((c.set key (some v) now duration).2.timestamps.map Prod.fst).Nodup :=
    CacheManager.nodup_ts_set c key (some v) now duration hnodupt
  have hcond : ¬(key = "" ∨ mhas (c.set key (some v) now duration).2.cache key = false) := by
    rintro (h1 | h1)
    · exact hkey h1
    · rw [mhas, hlookc] at h1
      exact Bool.noConfusion h1
  have hnotlive : ¬(now + duration ≠ 0 ∧ t < now + duration) := by
    rintro ⟨_, hlt⟩
    omega
  have hget := CacheManager.get_expired _ key t (now + duration) hcond hlookt hnotlive
  have hhas : mhas (c.set key (some v) now duration).2.cache key = true := by
    rw [mhas, hlookc]
    rfl
  have hdel : ((c.set key (some v) now duration).2.delete key)
      = (true, { (c.set key (some v) now duration).2 with
                   cache := merase (c.set key (some v) now duration).2.cache key,
                   timestamps := merase (c.set key (some v) now duration).2.timestamps key }) := by
    rw [CacheManager.delete, if_pos hhas]
  refine ⟨hs1, hlookc, hlookt, ?_, ?_, ?_, ?_, ?_⟩
  · rw [hget]
  · rw [hget, hdel]
  · rw [hget, hdel]
  · rw [hget, hdel]
    exact mlookup_merase_self _ _ hnodupc2
  · rw [hget, hdel]
    exact mlookup_merase_self _ _ hnodupt2

/-- C10 witness: setting key `k` at time 5 with duration `-3` succeeds, and
reading it back at the same time 5 yields notFound. -/
theorem claim_C10_witness :
    (((emptyCache Nat 100).set "k" (some 1) 5 (-3)).2.get "k" 5).1 = none :=
  (claim_C10 (emptyCache Nat 100) "k" 1 5 5 (-3) (by decide) (by decide)
      (by decide) (by decide) (by decide)).2.2.2.1

/-- C3 counterexample: a size-2 cache at its bound holding A then B; the claim
says `set("B", 7, d)` overwrites B only, leaving the size at 2 and key A in
place.  The code calls `enforceMaxSize` before looking at the key, so it first
evicts the oldest entry A and the cache shrinks to a single entry. -/
theorem claim_C3_counterexample :
    ((⟨[("A", 1), ("B", 2)], [("A", 1000), ("B", 1000)], 0, 0, 2, 300000⟩ :
        CacheManager Nat).set "B" (some 7) 0 60000).2.cache.length = 1 ∧
    mlookup ((⟨[("A", 1), ("B", 2)], [("A", 1000), ("B", 1000)], 0, 0, 2, 300000⟩ :
        CacheManager Nat).set "B" (some 7) 0 60000).2.cache "A" = none := by
  decide

/-- C3 (amended): `set(k, v, d)` runs the eviction loop before writing, so
overwriting key `k` is a pure in-place update only while the cache is below
its size bound: then the size, and every other key's value and expiry, are
unchanged.  When the cache is exactly at its bound and `k` is not the oldest
entry, the oldest entry is evicted first, and the overwrite leaves the cache
one entry smaller than the bound. -/
theorem claim_C3 {α : Type} (c : CacheManager α) (k : String) (v' : α)
    (now d' : Int) (hk : k ≠ "") (hmem : mhas c.cache k = true)
    (hnodupc : (c.cache.map Prod.fst).Nodup) :
    (c.cache.length < c.maxSize →
       (c.set k (some v') now d').2.cache.length = c.cache.length ∧
       mlookup (c.set k (some v') now d').2.cache k = some v' ∧
       mlookup (c.set k (some v') now d').2.timestamps k = some (now + d') ∧
       (∀ k2, k2 ≠ k →
          mlookup (c.set k (some v') now d').2.cache k2 = mlookup c.cache k2 ∧
          mlookup (c.set k (some v') now d').2.timestamps k2
            = mlookup c.timestamps k2)) ∧
    (∀ p rest, c.cache = p :: rest → c.cache.length = c.maxSize →
       p.1 ≠ k → p.1 ≠ "" →
       (c.set k (some v') now d').2.cache.length + 1 = c.maxSize ∧
       mlookup (c.set k (some v') now d').2.cache p.1 = none ∧
       mlookup (c.set k (some v') now d').2.cache k = some v') := by
  have hmemk : k ∈ c.cache.map Prod.fst := (mhas_iff_mem _ _).mp hmem
  constructor
  · intro hlt
    have henf : c.enforceMaxSize = c := CacheManager.enforceMaxSize_of_lt c hlt
    have hset2 : (c.set k (some v') now d').2
        = { c with cache := mset c.cache k v',
                   timestamps := mset c.timestamps k (now + d') } := by
      rw [CacheManager.set, if_neg hk, henf]
    rw [hset2]
    refine ⟨?_, mlookup_mset_self _ _ _, mlookup_mset_self _ _ _, ?_⟩
    · show (mset c.cache k v').length = c.cache.length
      have h1 : ((mset c.cache k v').map Prod.fst).length
          = (c.cache.map Prod.fst).length := by
        rw [map_fst_mset_mem _ _ _ hmemk]
      rw [List.length_map, List.length_map] at h1
      exact h1
    · intro k2 hk2
      exact ⟨mlookup_mset_ne _ _ _ _ hk2, mlookup_mset_ne _ _ _ _ hk2⟩
  · intro p rest hc hlen hpk hpne
    have henf := CacheManager.enforce_eq_delete_head c p rest hc hpne hlen
    have hset2 : (c.set k (some v') now d').2
        = { (c.delete p.1).2 with
              cache := mset (c.delete p.1).2.cache k v',
              timestamps := mset (c.delete p.1).2.timestamps k (now + d') } := by
      rw [CacheManager.set, if_neg hk, henf.1]
    have hkrest : k ∈ rest.map Prod.fst := by
      rw [hc, List.map_cons] at hmemk
      rcases List.mem_cons.mp hmemk with he | hm
      · exact absurd he.symm hpk
      · exact hm
    have hprest : p.1 ∉ rest.map Prod.fst := by
      rw [hc, List.map_cons] at hnodupc
      exact (List.nodup_cons.mp hnodupc).1
    rw [hset2]
    refine ⟨?_, ?_, mlookup_mset_self _ _ _⟩
    · show (mset (c.delete p.1).2.cache k v').length + 1 = c.maxSize
      rw [henf.2]
      have h1 : ((mset rest k v').map Prod.fst).length = (rest.map Prod.fst).length := by
        rw [map_fst_mset_mem _ _ _ hkrest]
      rw [List.length_map, List.length_map] at h1
      rw [h1, ← hlen, hc]
      rfl
    · show mlookup (mset (c.delete p.1).2.cache k v') p.1 = none
      rw [henf.2, mlookup_mset_ne _ _ _ _ hpk]
      exact (mlookup_eq_none_iff _ _).mpr hprest

/-- C3 witness: in a cache of bound 3 holding two entries, overwriting B keeps
the overwrite in place. -/
theorem claim_C3_witness :
    mlookup ((⟨[("A", 1), ("B", 2)], [("A", 1000), ("B", 1000)], 0, 0, 3, 300000⟩ :
        CacheManager Nat).set "B" (some 7) 0 60000).2.cache "B" = some 7 :=
  ((claim_C3 (⟨[("A", 1), ("B", 2)], [("A", 1000), ("B", 1000)], 0, 0, 3, 300000⟩ :
      CacheManager Nat) "B" 7 0 60000 (by decide) (by decide) (by decide)).1
    (by decide)).2.1

/-! ### Operation sequences for the FIFO-eviction claim -/

/-- One cache operation of the C5 scenario: an insertion (with a defined
value) or a read. -/
inductive CacheOp (α : Type) where
  | setOp (key : String) (value : α) (duration : Int)
  | getOp (key : String)

/-- Run a sequence of cache operations at a fixed instant `now`. -/
def runOps {α : Type} (c : CacheManager α) (ops : List (CacheOp α)) (now : Int) :
    CacheManager α :=
  ops.foldl (fun st op =>
    match op with
    | CacheOp.setOp k v d => (st.set k (some v) now d).2
    | CacheOp.getOp k => (st.get k now).2) c

/-- The keys of the insertions of an operation sequence, in order. -/
def setKeys {α : Type} (ops : List (CacheOp α)) : List String :=
  ops.filterMap (fun op =>
    match op with
    | CacheOp.setOp k _ _ => some k
    | CacheOp.getOp _ => none)

/-- Scenario side conditions of C5 on one operation: insertions use a
non-empty key and a strictly positive duration. -/
def opWellFormed {α : Type} : CacheOp α → Bool
  | CacheOp.setOp k _ d => (k ≠ "" : Bool) && (0 < d : Bool)
  | CacheOp.getOp _ => true

/-- Every timestamp stored in the cache is truthy and strictly in the
future. -/
def allLive {α : Type} (c : CacheManager α) (now : Int) : Prop :=
  ∀ p ∈ c.timestamps, p.2 ≠ 0 ∧ now < p.2

theorem mset_mem {α : Type} {m : List (String × α)} {k : String} {v : α} {p : String × α}
    (h : p ∈ mset m k v) : p ∈ m ∨ p = (k, v) := by
  induction m with
  | nil =>
    rw [mset] at h
    right
    simpa using h
  | cons q rest ih =>
    obtain ⟨k', v'⟩ := q
    by_cases hk : k' = k
    · rw [mset, if_pos hk] at h
      rcases List.mem_cons.mp h with he | hm
      · right
        exact he
      · left
        exact List.mem_cons_of_mem _ hm
    · rw [mset, if_neg hk] at h
      rcases List.mem_cons.mp h with he | hm
      · left
        rw [he]
        exact List.mem_cons_self _ _
      · rcases ih hm with h1 | h1
        · left
          exact List.mem_cons_of_mem _ h1
        · right
          exact h1

theorem merase_subset {α : Type} {m : List (String × α)} {k : String} {p : String × α}
    (h : p ∈ merase m k) : p ∈ m := by
  induction m with
  | nil =>
    rw [merase] at h
    exact absurd h (List.not_mem_nil p)
  | cons q rest ih =>
    obtain ⟨k', v'⟩ := q
    by_cases hk : k' = k
    · rw [merase, if_pos hk] at h
      exact List.mem_cons_of_mem _ h
    · rw [merase, if_neg hk] at h
      rcases List.mem_cons.mp h with he | hm
      · rw [he]
        exact List.mem_cons_self _ _
      · exact List.mem_cons_of_mem _ (ih hm)

namespace CacheManager

theorem get_maxSize {α : Type} (c : CacheManager α) (key : String) (now : Int) :
    (c.get key now).2.maxSize = c.maxSize := by
  by_cases hcond : key = "" ∨ mhas c.cache key = false
  · rw [get_miss_absent c key now hcond]
  · cases hts : mlookup c.timestamps key with
    | none =>
      rw [get_no_timestamp c key now hcond hts]
      exact delete_maxSize c key
    | some e =>
      by_cases hlive : e ≠ 0 ∧ now < e
      · rw [get_hit c key now e hcond hts hlive]
      · rw [get_expired c key now e hcond hts hlive]
        exact delete_maxSize c key

theorem enforceMaxSizeAux_maxSize {α : Type} (fuel : Nat) (c : CacheManager α) :
    (enforceMaxSizeAux fuel c).maxSize = c.maxSize := by
  induction fuel generalizing c with
  | zero => rfl
  | succ n ih =>
    rw [enforceMaxSizeAux]
    by_cases hsz : c.maxSize ≤ c.cache.length
    · rw [if_pos hsz]
      cases hh : c.cache.head? with
      | none => rfl
      | some kv =>
        by_cases hk : kv.1 = ""
        · simp only [hk, if_true]
        · simp only [hk, if_false]
          rw [ih, delete_maxSize]
    · rw [if_neg hsz]

theorem set_maxSize {α : Type} (c : CacheManager α) (key : String) (value : Option α)
    (now duration : Int) : (c.set key value now duration).2.maxSize = c.maxSize := by
  cases value with
  | none => rfl
  | some v =>
    rw [set]
    by_cases hk : key = ""
    · rw [if_pos hk]
    · rw [if_neg hk]
      exact enforceMaxSizeAux_maxSize _ c

/-- A read of a key whose entry (if any) is live leaves both maps untouched:
with every stored timestamp in the future and the maps key-aligned, `get`
either hits or plainly misses, and never deletes. -/
theorem get_frame {α : Type} (c : CacheManager α) (key : String) (now : Int)
    (halign : keysAligned c) (hlive : allLive c now) :
    (c.get key now).2.cache = c.cache ∧ (c.get key now).2.timestamps = c.timestamps := by
  by_cases hcond : key = "" ∨ mhas c.cache key = false
  · rw [get_miss_absent c key now hcond]
    exact ⟨rfl, rfl⟩
  · have hhas : mhas c.cache key = true := by
      cases hh : mhas c.cache key with
      | false => exact absurd (Or.inr hh) hcond
      | true => rfl
    have hmemts : key ∈ c.timestamps.map Prod.fst := by
      rw [← halign]
      exact (mhas_iff_mem _ _).mp hhas
    cases hts : mlookup c.timestamps key with
    | none => exact absurd ((mlookup_eq_none_iff _ _).mp hts) (by simpa using hmemts)
    | some e =>
      have he : e ≠ 0 ∧ now < e := hlive (key, e) (mlookup_mem hts)
      rw [get_hit c key now e hcond hts he]
      exact ⟨rfl, rfl⟩

theorem allLive_delete {α : Type} (c : CacheManager α) (key : String) (now : Int)
    (h : allLive c now) : allLive (c.delete key).2 now := by
  rw [delete]
  by_cases hhas : mhas c.cache key = true
  · simp only [hhas, if_true]
    intro p hp
    exact h p (merase_subset hp)
  · simp only [hhas]
    exact h

theorem allLive_enforceMaxSizeAux {α : Type} (fuel : Nat) (c : CacheManager α)
    (now : Int) (h : allLive c now) : allLive (enforceMaxSizeAux fuel c) now := by
  induction fuel generalizing c with
  | zero => exact h
  | succ n ih =>
    rw [enforceMaxSizeAux]
    by_cases hsz : c.maxSize ≤ c.cache.length
    · rw [if_pos hsz]
      cases hh : c.cache.head? with
      | none => exact h
      | some kv =>
        by_cases hk : kv.1 = ""
        · simp only [hk, if_true]
          exact h
        · simp only [hk, if_false]
          exact ih _ (allLive_delete c kv.1 now h)
    · rw [if_neg hsz]
      exact h

theorem allLive_set {α : Type} (c : CacheManager α) (key : String) (v : α)
    (now duration : Int) (hnow : 0 ≤ now) (hdur : 0 < duration)
    (h : allLive c now) : allLive (c.set key (some v) now duration).2 now := by
  rw [set]
  by_cases hk : key = ""
  · rw [if_pos hk]
    exact h
  · rw [if_neg hk]
    intro p hp
    rcases mset_mem hp with h1 | h1
    · exact allLive_enforceMaxSizeAux _ c now h p h1
    · rw [h1]
      constructor
      · show now + duration ≠ 0
        omega
      · show now < now + duration
        omega

end CacheManager

theorem setKeys_get_cons {α : Type} (k : String) (rest : List (CacheOp α)) :
    setKeys (CacheOp.getOp k :: rest) = setKeys rest := by
  simp [setKeys, List.filterMap_cons]

theorem setKeys_set_cons {α : Type} (k : String) (v : α) (d : Int)
    (rest : List (CacheOp α)) :
    setKeys (CacheOp.setOp k v d :: rest) = k :: setKeys rest := by
  simp [setKeys, List.filterMap_cons]

/-- FIFO characterization of insertion sequences: running well-formed
operations at one instant over a cache whose stored entries are all live,
the final cache keys are the concatenation of the starting keys and the
inserted keys, with the oldest keys dropped down to the size bound.  Reads
contribute nothing: with every entry live they never delete. -/
theorem runOps_cache_keys {α : Type} :
    ∀ (ops : List (CacheOp α)) (c : CacheManager α) (now : Int),
    0 ≤ now →
    keysAligned c →
    allLive c now →
    (∀ p ∈ c.cache, p.1 ≠ "") →
    ((c.cache.map Prod.fst) ++ setKeys ops).Nodup →
    c.cache.length ≤ c.maxSize →
    1 ≤ c.maxSize →
    (∀ op ∈ ops, opWellFormed op = true) →
    (runOps c ops now).cache.map Prod.fst
      = ((c.cache.map Prod.fst) ++ setKeys ops).drop
          ((c.cache.length + (setKeys ops).length) - c.maxSize) := by
  intro ops
  induction ops with
  | nil =>
    intro c now hnow halign hlive hkeys hnodup hlen hm hops
    have h0 : c.cache.length + (setKeys ([] : List (CacheOp α))).length - c.maxSize
        = 0 := by
      simp [setKeys]
      omega
    rw [h0]
    simp [runOps, setKeys]
  | cons op rest ih =>
    intro c now hnow halign hlive hkeys hnodup hlen hm hops
    have hops' : ∀ o ∈ rest, opWellFormed o = true :=
      fun o ho => hops o (List.mem_cons_of_mem _ ho)
    cases op with
    | getOp k =>
      have hstep : runOps c (CacheOp.getOp k :: rest) now
          = runOps (c.get k now).2 rest now := rfl
      have hframe := CacheManager.get_frame c k now halign hlive
      have halign2 : keysAligned (c.get k now).2 :=
        CacheManager.keysAligned_get c k now halign
      have hlive2 : allLive (c.get k now).2 now := by
        intro p hp
        rw [hframe.2] at hp
        exact hlive p hp
      have hkeys2 : ∀ p ∈ (c.get k now).2.cache, p.1 ≠ "" := by
        intro p hp
        rw [hframe.1] at hp
        exact hkeys p hp
      have happ := ih (c.get k now).2 now hnow halign2 hlive2 hkeys2
        (by rw [hframe.1, ← setKeys_get_cons k rest]; exact hnodup)
        (by rw [hframe.1, CacheManager.get_maxSize]; exact hlen)
        (by rw [CacheManager.get_maxSize]; exact hm)
        hops'
      rw [hstep, happ, hframe.1, CacheManager.get_maxSize, setKeys_get_cons]
    | setOp k v d =>
      have hwf : opWellFormed (CacheOp.setOp k v d : CacheOp α) = true :=
        hops _ (List.mem_cons_self _ _)
      rw [opWellFormed, Bool.and_eq_true] at hwf
      have hk : k ≠ "" := of_decide_eq_true hwf.1
      have hd : 0 < d := of_decide_eq_true hwf.2
      have hstep : runOps c (CacheOp.setOp k v d :: rest) now
          = runOps (c.set k (some v) now d).2 rest now := rfl
      have halign2 : keysAligned (c.set k (some v) now d).2 :=
        CacheManager.keysAligned_set c k (some v) now d halign
      have hlive2 : allLive (c.set k (some v) now d).2 now :=
        CacheManager.allLive_set c k v now d hnow hd hlive
      have hknotinL : k ∉ c.cache.map Prod.fst := by
        have hdisj := (List.nodup_append.mp hnodup).2.2
        rw [setKeys_set_cons] at hdisj
        exact fun hmem => hdisj hmem (List.mem_cons_self _ _)
      rcases lt_or_eq_of_le hlen with hcase | hcase
      · -- below the bound: plain append
        have henf : c.enforceMaxSize = c := CacheManager.enforceMaxSize_of_lt c hcase
        have hset2 : (c.set k (some v) now d).2
            = { c with cache := mset c.cache k v,
                       timestamps := mset c.timestamps k (now + d) } := by
          rw [CacheManager.set, if_neg hk, henf]
        have hnewkeys : (c.set k (some v) now d).2.cache.map Prod.fst
            = c.cache.map Prod.fst ++ [k] := by
          rw [hset2]
          exact map_fst_mset_not_mem _ _ _ hknotinL
        have hnewlen : (c.set k (some v) now d).2.cache.length
            = c.cache.length + 1 := by
          have h1 := congrArg List.length hnewkeys
          rw [List.length_map, List.length_append, List.length_map] at h1
          simpa using h1
        have hkeys2 : ∀ p ∈ (c.set k (some v) now d).2.cache, p.1 ≠ "" := by
          intro p hp
          rw [hset2] at hp
          rcases mset_mem hp with h1 | h1
          · exact hkeys p h1
          · rw [h1]
            exact hk
        have hnodup2 : ((c.set k (some v) now d).2.cache.map Prod.fst
            ++ setKeys rest).Nodup := by
          rw [hnewkeys, List.append_assoc, List.singleton_append]
          rw [setKeys_set_cons] at hnodup
          exact hnodup
        have happ := ih (c.set k (some v) now d).2 now hnow halign2 hlive2 hkeys2
          hnodup2
          (by rw [hnewlen, CacheManager.set_maxSize]; omega)
          (by rw [CacheManager.set_maxSize]; exact hm)
          hops'
        rw [hstep, happ, hnewkeys, hnewlen, CacheManager.set_maxSize,
          setKeys_set_cons, List.append_assoc, List.singleton_append]
        have hidx : c.cache.length + 1 + (setKeys rest).length - c.maxSize
            = c.cache.length + (k :: setKeys rest).length - c.maxSize := by
          simp
          omega
        rw [hidx]
      · -- exactly at the bound: the oldest entry is evicted first
        cases hcc : c.cache with
        | nil =>
          rw [hcc] at hcase
          simp at hcase
          omega
        | cons p rest2 =>
          have hp1 : p.1 ≠ "" := hkeys p (by rw [hcc]; exact List.mem_cons_self _ _)
          have henf := CacheManager.enforce_eq_delete_head c p rest2 hcc hp1 hcase
          have hset2 : (c.set k (some v) now d).2
              = { (c.delete p.1).2 with
                    cache := mset (c.delete p.1).2.cache k v,
                    timestamps := mset (c.delete p.1).2.timestamps k (now + d) } := by
            rw [CacheManager.set, if_neg hk, henf.1]
          have hknotinR : k ∉ rest2.map Prod.fst := by
            intro hmem
            exact hknotinL (by rw [hcc, List.map_cons]; exact List.mem_cons_of_mem _ hmem)
          have hnewkeys : (c.set k (some v) now d).2.cache.map Prod.fst
              = rest2.map Prod.fst ++ [k] := by
            rw [hset2]
            show (mset (c.delete p.1).2.cache k v).map Prod.fst = _
            rw [henf.2]
            exact map_fst_mset_not_mem _ _ _ hknotinR
          have hnewlen : (c.set k (some v) now d).2.cache.length
              = rest2.length + 1 := by
            have h1 := congrArg List.length hnewkeys
            rw [List.length_map, List.length_append, List.length_map] at h1
            simpa using h1
          have hkeys2 : ∀ q ∈ (c.set k (some v) now d).2.cache, q.1 ≠ "" := by
            intro q hq
            rw [hset2] at hq
            rcases mset_mem hq with h1 | h1
            · have h2 : q ∈ c.cache := by
                have h3 : (c.delete p.1).2.cache = rest2 := henf.2
                rw [h3] at h1
                rw [hcc]
                exact List.mem_cons_of_mem _ h1
              exact hkeys q h2
            · rw [h1]
              exact hk
          have hnodup2 : ((c.set k (some v) now d).2.cache.map Prod.fst
              ++ setKeys rest).Nodup := by
            rw [hnewkeys, List.append_assoc, List.singleton_append]
            rw [setKeys_set_cons, hcc, List.map_cons, List.cons_append] at hnodup
            exact (List.nodup_cons.mp hnodup).2
          have hlen2 : (c.set k (some v) now d).2.cache.length
              ≤ (c.set k (some v) now d).2.maxSize := by
            rw [hnewlen, CacheManager.set_maxSize, ← hcase, hcc]
            simp
          have happ := ih (c.set k (some v) now d).2 now hnow halign2 hlive2 hkeys2
            hnodup2 hlen2
            (by rw [CacheManager.set_maxSize]; exact hm)
            hops'
          rw [hstep, happ, hnewkeys, hnewlen, CacheManager.set_maxSize,
            setKeys_set_cons]
          have hlenc : rest2.length + 1 = c.maxSize := by
            rw [← hcase, hcc]
            rfl
          have hidx1 : rest2.length + 1 + (setKeys rest).length - c.maxSize
              = (setKeys rest).length := by
            omega
          have hidx2 : (p :: rest2).length + (k :: setKeys rest).length - c.maxSize
              = (setKeys rest).length + 1 := by
            simp only [List.length_cons]
            omega
          rw [hidx1, hidx2, List.map_cons, List.cons_append, List.drop_succ_cons,
            List.append_assoc, List.singleton_append]

/-- C5: inserting maxSize+1 distinct non-empty keys (each with a defined value
and a positive duration) into an initially empty cache, with arbitrary reads
interleaved anywhere in the sequence, leaves exactly maxSize entries, and the
evicted entry is the first-inserted key — FIFO insertion-order eviction, not
LRU: reads neither reorder nor protect entries. -/
theorem claim_C5 {α : Type} (m : Nat) (ops : List (CacheOp α)) (now : Int)
    (hm : 1 ≤ m) (hnow : 0 ≤ now)
    (hlen : (setKeys ops).length = m + 1)
    (hnodup : (setKeys ops).Nodup)
    (hops : ∀ op ∈ ops, opWellFormed op = true) :
    (runOps (emptyCache α m) ops now).cache.map Prod.fst = (setKeys ops).drop 1 ∧
    (runOps (emptyCache α m) ops now).cache.length = m := by
  have hrun := runOps_cache_keys ops (emptyCache α m) now hnow rfl
    (fun p hp => absurd hp (List.not_mem_nil p))
    (fun p hp => absurd hp (List.not_mem_nil p))
    (by simpa [emptyCache] using hnodup)
    (by simp [emptyCache])
    (by simpa [emptyCache] using hm)
    hops
  have hidx : (emptyCache α m).cache.length + (setKeys ops).length
      - (emptyCache α m).maxSize = 1 := by
    show 0 + (setKeys ops).length - m = 1
    omega
  have hfirst : (runOps (emptyCache α m) ops now).cache.map Prod.fst
      = (setKeys ops).drop 1 := by
    rw [hrun, hidx]
    rfl
  refine ⟨hfirst, ?_⟩
  have h1 := congrArg List.length hfirst
  rw [List.length_map, List.length_drop, hlen] at h1
  omega

/-- C5 witness: three distinct keys A, B, C inserted into an empty size-2
cache, with a read of A between the insertions of B and C; A is evicted and
B, C remain. -/
theorem claim_C5_witness :
    (runOps (emptyCache Nat 2)
        [CacheOp.setOp "A" 1 60000, CacheOp.setOp "B" 2 60000, CacheOp.getOp "A",
         CacheOp.setOp "C" 3 60000] 0).cache.map Prod.fst = ["B", "C"] :=
  (claim_C5 2
    [CacheOp.setOp "A" 1 60000, CacheOp.setOp "B" 2 60000, CacheOp.getOp "A",
     CacheOp.setOp "C" 3 60000] 0 (by decide) (by decide) (by decide) (by decide)
    (by decide)).1

/-! ### PerformanceMonitor -/

/-- JavaScript `Math.round`: round half toward positive infinity. -/
def jsRound (x : ℚ) : Int := ⌊x + 1/2⌋

/-- The `metrics` state of a `PerformanceMonitor` instance (`memoryUsage` and
the start time are omitted: no claim touches them); `recentErrors` keeps the
error descriptions. -/
structure PerformanceMonitor where
  apiCalls : Nat
  cacheHits : Nat
  cacheMisses : Nat
  errors : Nat
  loadTimes : List ℚ
  userInteractions : Nat
  recentErrors : List String

namespace PerformanceMonitor

/-- `recordLoadTime(duration)`: keep only the most recent 100 samples
(`thresholds.maxLoadTimes`). -/
def recordLoadTime (p : PerformanceMonitor) (duration : ℚ) : PerformanceMonitor :=
  if 0 < duration then
    let lt := p.loadTimes ++ [duration]
    { p with loadTimes := if 100 < lt.length then lt.drop 1 else lt }
  else p

/-- `recordAPICall(endpoint, duration)` (the endpoint is only logged). -/
def recordAPICall (p : PerformanceMonitor) (duration : ℚ) : PerformanceMonitor :=
  let p1 := { p with apiCalls := p.apiCalls + 1 }
  if 0 < duration then p1.recordLoadTime duration else p1

/-- `recordCacheHit()`. -/
def recordCacheHit (p : PerformanceMonitor) : PerformanceMonitor :=
  { p with cacheHits := p.cacheHits + 1 }

/-- `recordCacheMiss()`. -/
def recordCacheMiss (p : PerformanceMonitor) : PerformanceMonitor :=
  { p with cacheMisses := p.cacheMisses + 1 }

/-- `recordError(error, context)`: count it and keep the most recent 10
descriptions. -/
def recordError (p : PerformanceMonitor) (message : String) : PerformanceMonitor :=
  let re := p.recentErrors ++ [message]
  { p with errors := p.errors + 1,
           recentErrors := if 10 < re.length then re.drop 1 else re }

/-- `recordAPIResponseTime(responseTime)`. -/
def recordAPIResponseTime (p : PerformanceMonitor) (responseTime : ℚ) :
    PerformanceMonitor :=
  p.recordLoadTime responseTime

/-- `calculatePerformanceScore()`: start at 100; subtract `errorRate * 10`;
subtract 20 when the average load time exceeds 1000 and another 30 when it
exceeds 2000; add 10 when the cache-hit rate exceeds 70 and another 20 when it
exceeds 90; round and clamp to [0, 100]. -/
def calculatePerformanceScore (p : PerformanceMonitor) : Int :=
  let score : ℚ := 100
  let errorRate : ℚ :=
    if 0 < p.apiCalls then ((p.errors : ℚ) / (p.apiCalls : ℚ)) * 100 else 0
  let score1 := score - errorRate * 10
  let avgLoadTime : ℚ :=
    if 0 < p.loadTimes.length then p.loadTimes.sum / (p.loadTimes.length : ℚ) else 0
  let score2 := if 1000 < avgLoadTime then score1 - 20 else score1
  let score3 := if 2000 < avgLoadTime then score2 - 30 else score2
  let totalCacheRequests := p.cacheHits + p.cacheMisses
  let cacheHitRate : ℚ :=
    if 0 < totalCacheRequests
    then ((p.cacheHits : ℚ) / ((totalCacheRequests : Nat) : ℚ)) * 100 else 0
  let score4 := if 70 < cacheHitRate then score3 + 10 else score3
  let score5 := if 90 < cacheHitRate then score4 + 20 else score4
  max 0 (min 100 (jsRound score5))

end PerformanceMonitor

/-- Error rate in percent, as `calculatePerformanceScore` and `getStats`
compute it (0 when no calls were made). -/
def errorRatePercent (p : PerformanceMonitor) : ℚ :=
  if 0 < p.apiCalls then ((p.errors : ℚ) / (p.apiCalls : ℚ)) * 100 else 0

/-- Average latency over the retained load-time samples (0 when empty). -/
def averageLoadTime (p : PerformanceMonitor) : ℚ :=
  if 0 < p.loadTimes.length then p.loadTimes.sum / (p.loadTimes.length : ℚ) else 0

/-- Cache-hit rate in percent (0 when no cache requests were made). -/
def cacheHitRatePercent (p : PerformanceMonitor) : ℚ :=
  if 0 < p.cacheHits + p.cacheMisses
  then ((p.cacheHits : ℚ) / (((p.cacheHits + p.cacheMisses : Nat)) : ℚ)) * 100
  else 0

/-- The performance score exactly as claim C2 words it: the clamp to [0,100]
of 100, minus 10 times the error-rate percentage, minus 20 if average latency
exceeds 1000ms and an additional 10 (-30 total) if it exceeds 2000ms, plus 10
if the cache-hit rate exceeds 70% and a further 10 (+20 total) if it exceeds
90%. -/
def specPerformanceScore (p : PerformanceMonitor) : ℚ :=
  max 0 (min 100
    (100 - 10 * errorRatePercent p
       - (if 1000 < averageLoadTime p then 20 else 0)
       - (if 2000 < averageLoadTime p then 10 else 0)
       + (if 70 < cacheHitRatePercent p then 10 else 0)
       + (if 90 < cacheHitRatePercent p then 10 else 0)))

/-- The score formula the code actually implements, in the claim's vocabulary:
the latency penalties are 20 and an additional 30 (-50 total beyond 2000ms)
and the cache bonuses are 10 and a further 20 (+30 total beyond 90%), with
JavaScript rounding before the clamp. -/
def amendedPerformanceScore (p : PerformanceMonitor) : Int :=
  max 0 (min 100 (jsRound
    (100 - 10 * errorRatePercent p
       - (if 1000 < averageLoadTime p then 20 else 0)
       - (if 2000 < averageLoadTime p then 30 else 0)
       + (if 70 < cacheHitRatePercent p then 10 else 0)
       + (if 90 < cacheHitRatePercent p then 20 else 0))))

/-- C2 counterexample: one API call, no errors, a single 2500ms latency
sample, no cache traffic.  The code scores 100 - 20 - 30 = 50 (the >2000ms
branch subtracts another 30, not another 10), while the claim's formula gives
100 - 20 - 10 = 70. -/
theorem claim_C2_counterexample :
    PerformanceMonitor.calculatePerformanceScore ⟨1, 0, 0, 0, [2500], 0, []⟩ = 50 ∧
    specPerformanceScore ⟨1, 0, 0, 0, [2500], 0, []⟩ = 70 ∧
    ¬((PerformanceMonitor.calculatePerformanceScore ⟨1, 0, 0, 0, [2500], 0, []⟩ : ℚ)
        = specPerformanceScore ⟨1, 0, 0, 0, [2500], 0, []⟩) := by
  have e1 : PerformanceMonitor.calculatePerformanceScore ⟨1, 0, 0, 0, [2500], 0, []⟩
      = 50 := by
    norm_num [PerformanceMonitor.calculatePerformanceScore, jsRound]
  have e2 : specPerformanceScore ⟨1, 0, 0, 0, [2500], 0, []⟩ = 70 := by
    norm_num [specPerformanceScore, errorRatePercent, averageLoadTime,
      cacheHitRatePercent]
  refine ⟨e1, e2, fun h => ?_⟩
  rw [e1, e2] at h
  norm_num at h

/-- C2 (amended): the metrics performance score equals the clamp to [0,100] of
the rounded value of: 100, minus 10 times the error-rate percentage, minus 20
if average latency exceeds 1000ms and an additional 30 (for -50 total) if it
exceeds 2000ms, plus 10 if the cache-hit rate exceeds 70% and a further 20
(for +30 total) if it exceeds 90%. -/
theorem claim_C2 (p : PerformanceMonitor) :
    PerformanceMonitor.calculatePerformanceScore p = amendedPerformanceScore p := by
  rw [PerformanceMonitor.calculatePerformanceScore, amendedPerformanceScore,
    errorRatePercent, averageLoadTime, cacheHitRatePercent]
  split_ifs <;>
    exact congrArg (fun x : ℚ => max 0 (min 100 (jsRound x))) (by ring)

/-! ### SecurityManager input sanitization and validation -/

/-- The characters removed by `sanitizeInput`'s first step: the HTML/script
injection characters less-than, greater-than, double quote, single quote and
backtick (character codes 34, 39 and 96). -/
def isInjectionChar (c : Char) : Bool :=
  c = '<' || c = '>' || c = Char.ofNat 34 || c = Char.ofNat 39 || c = Char.ofNat 96

/-- Control characters: codes 0 to 31 and 127. -/
def isControlChar (c : Char) : Bool :=
  c.toNat < 32 || c.toNat = 127

/-- Case-insensitive prefix test: the pattern (given in lower case) against
the lower-cased text. -/
def matchesLower : List Char → List Char → Bool
  | [], _ => true
  | _ :: _, [] => false
  | p :: ps, c :: cs => p = c.toLower && matchesLower ps cs

/-- One left-to-right pass of `String.replace(/pat/gi, "")`: on a match, skip
the matched characters and continue after them; fuel bounds the recursion. -/
def removeAllCIAux (pat : List Char) : Nat → List Char → List Char
  | 0, s => s
  | _ + 1, [] => []
  | fuel + 1, c :: cs =>
    if matchesLower pat (c :: cs) then
      removeAllCIAux pat fuel (List.drop pat.length (c :: cs))
    else
      c :: removeAllCIAux pat fuel cs

/-- JavaScript word character `\w`: letters, digits, underscore. -/
def isWordChar (c : Char) : Bool :=
  c.isAlpha || c.isDigit || c = '_'

/-- JavaScript whitespace `\s` (ASCII part): space, tab, newline, carriage
return, vertical tab, form feed. -/
def isSpaceJS (c : Char) : Bool :=
  c = ' ' || c = Char.ofNat 9 || c = Char.ofNat 10 || c = Char.ofNat 13 ||
    c = Char.ofNat 11 || c = Char.ofNat 12

/-- Match of the event-handler pattern `/on\w+\s*=/i` at the head of the list:
`on`, at least one word character (maximal run), optional whitespace (maximal
run), then `=`; backtracking the greedy runs can never re-enable the required
`=`, so maximal runs are faithful.  Returns the remainder after the match. -/
def eventHandlerMatch (s : List Char) : Option (List Char) :=
  match s with
  | c0 :: c1 :: rest =>
    if c0.toLower = 'o' && c1.toLower = 'n' then
      let w := rest.takeWhile isWordChar
      if 0 < w.length then
        let rest2 := rest.drop w.length
        let sp := rest2.takeWhile isSpaceJS
        match rest2.drop sp.length with
        | e :: rest4 => if e = '=' then some rest4 else none
        | [] => none
      else none
    else none
  | _ => none

/-- One left-to-right pass of `String.replace(/on\w+\s*=/gi, "")`. -/
def removeEventHandlersAux : Nat → List Char → List Char
  | 0, s => s
  | _ + 1, [] => []
  | fuel + 1, c :: cs =>
    match eventHandlerMatch (c :: cs) with
    | some rest => removeEventHandlersAux fuel rest
    | none => c :: removeEventHandlersAux fuel cs

/-- JavaScript `String.prototype.trim` (ASCII whitespace). -/
def trimJS (s : List Char) : List Char :=
  ((s.dropWhile isSpaceJS).reverse.dropWhile isSpaceJS).reverse

/-- `SecurityManager.sanitizeInput(input, options)`: strip injection
characters, remove `javascript:`, `data:` and `vbscript:` protocols and
`on...=` event handlers case-insensitively, strip control characters, trim,
and truncate to `maxLength` (default `MAX_INPUT_LENGTH` = 50). -/
def sanitizeInput (s : String) (maxLength : Nat) : String :=
  let l1 := s.toList.filter (fun c => !(isInjectionChar c))
  let l2 := removeAllCIAux "javascript:".toList (l1.length + 1) l1
  let l3 := removeAllCIAux "data:".toList (l2.length + 1) l2
  let l4 := removeAllCIAux "vbscript:".toList (l3.length + 1) l3
  let l5 := removeEventHandlersAux (l4.length + 1) l4
  let l6 := l5.filter (fun c => !(isControlChar c))
  let l7 := trimJS l6
  String.mk (l7.take maxLength)

/-- The test of `STOCK_SYMBOL_PATTERN` = `/^[A-Za-z.]{1,10}$/`. -/
def stockSymbolPatternTest (s : String) : Bool :=
  1 ≤ s.length && s.length ≤ 10 && s.toList.all (fun c => c.isAlpha || c = '.')

/-- `SecurityManager.validateStockSymbol(symbol)`: a falsy (empty) symbol is
invalid; otherwise upper-case, sanitize, and require the symbol pattern with
length between 1 and `MAX_SYMBOL_LENGTH` = 10.
(`SecurityManager.validateInput(symbol, "stock_symbol")` dispatches here.) -/
def validateStockSymbol (symbol : String) : Bool :=
  if symbol = "" then
    false
  else
    let sanitized := sanitizeInput (String.mk (symbol.toList.map Char.toUpper)) 50
    stockSymbolPatternTest sanitized && 1 ≤ sanitized.length && sanitized.length ≤ 10

/-! ### Stock data fetching -/

namespace APP_CONSTANTS

/-- `APP_CONSTANTS.CACHE.STOCK_DURATION`: 1 minute for real-time data. -/
def STOCK_DURATION : Int := 60000

/-- `APP_CONSTANTS.CACHE.MOCK_DURATION`: 30 seconds for mock data. -/
def MOCK_DURATION : Int := 30000

/-- `APP_CONSTANTS.CACHE.ERROR_DURATION`: 10 seconds for error fallbacks. -/
def ERROR_DURATION : Int := 10000

/-- `APP_CONSTANTS.CACHE.MAX_SIZE`. -/
def MAX_SIZE : Nat := 100

end APP_CONSTANTS

/-- The stock payload built by `fetchStockData` and `generateMockStockData`.
`lastUpdated` is the construction timestamp (an ISO string in JavaScript);
remote results carry neither `isMockData` (modelled `false`), `source` nor
`errorReason` (modelled `none`). -/
structure StockInfo where
  symbol : String
  price : ℚ
  change : ℚ
  changePercent : ℚ
  lastUpdated : Int
  isMockData : Bool
  source : Option String
  errorReason : Option String
deriving DecidableEq

/-- JavaScript `Number.prototype.toFixed(2)` re-parsed by `parseFloat`:
round to two decimals, ties toward positive infinity. -/
def toFixed2 (x : ℚ) : ℚ := ((jsRound (x * 100) : Int) : ℚ) / 100

/-- The `basePrices` table of `generateMockStockData`. -/
def basePrices (symbol : String) : Option ℚ :=
  if symbol = "AAPL" then some 175
  else if symbol = "GOOGL" then some 140
  else if symbol = "MSFT" then some 350
  else if symbol = "AMZN" then some 130
  else if symbol = "TSLA" then some 240
  else if symbol = "NVDA" then some 450
  else if symbol = "META" then some 300
  else if symbol = "NFLX" then some 400
  else if symbol = "AMD" then some 110
  else if symbol = "CRM" then some 200
  else none

/-- `generateMockStockData(symbol)`: the base price comes from the static
table, or from `Math.random() * 400 + 50` for unknown symbols; the change is a
random delta within ±5% of the base.  The two `Math.random()` results are
passed in as `r1, r2 ∈ [0, 1)`. -/
def generateMockStockData (symbol : String) (r1 r2 : ℚ) (now : Int) : StockInfo :=
  let basePrice : ℚ :=
    match basePrices symbol with
    | some p => p
    | none => r1 * 400 + 50
  let volatility : ℚ := 5 / 100
  let change := (r2 - 1/2) * 2 * basePrice * volatility
  let changePercent := change / basePrice * 100
  { symbol := sanitizeInput symbol 50
    price := toFixed2 basePrice
    change := toFixed2 change
    changePercent := toFixed2 changePercent
    lastUpdated := now
    isMockData := true
    source := some "mock_generator"
    errorReason := none }

/-- A non-empty `Global Quote` object: the parsed numeric fields
(`parseFloat(...) || 0`) and the raw symbol string. -/
structure RemoteQuote where
  symbol : String
  price : ℚ
  change : ℚ
  changePercent : ℚ

/-- Outcome of the remote Alpha Vantage round trip, as `fetchStockData`
observes it: the `fetch`/`json` promise rejects (transport error or timeout
abort), the response is non-2xx, or a JSON body whose `Global Quote` is
present and non-empty (`some quote`, fields already parsed) or
missing/empty (`none`). -/
inductive RemoteOutcome where
  | transportError (message : String)
  | badStatus (status : Nat) (statusText : String)
  | payload (quote : Option RemoteQuote)

/-- Configuration environment read by `fetchStockData`: `AppState.isConfigLoaded`,
`API_CONFIG.ALPHA_VANTAGE_KEY` (the empty string models a falsy/missing key),
`AppState.configLoader` presence, and `configLoader.isDemoMode()`. -/
structure FetchEnv where
  isConfigLoaded : Bool
  alphaVantageKey : String
  hasConfigLoader : Bool
  isDemoMode : Bool

/-- Module state touched by `fetchStockData`: the `cacheManager` and
`performanceMonitor` singletons. -/
structure FetchState where
  cacheManager : CacheManager StockInfo
  performanceMonitor : PerformanceMonitor

/-- The body of `fetchStockData`'s `try` block; an `Except.error` is a thrown
exception, to be handled by the `catch` handler in `fetchStockData`.
Arguments beyond the JavaScript ones supply the environment and the
nondeterminism: the configuration state `env`, the remote outcome `remote`,
the clock `now`, the two `Math.random()` draws `r1, r2`, and the measured
round-trip time `fetchTime`. -/
def fetchStockDataTry (st : FetchState) (symbol : String) (allowMockData : Bool)
    (env : FetchEnv) (remote : RemoteOutcome) (now : Int) (r1 r2 : ℚ)
    (fetchTime : ℚ) : Except String StockInfo × FetchState :=
  let cacheKey := "stock_" ++ symbol
  if validateStockSymbol symbol = false then
    (Except.error "Invalid stock symbol provided", st)
  else
    let cres := st.cacheManager.get cacheKey now
    let st1 : FetchState := { st with cacheManager := cres.2 }
    match cres.1 with
    | some cachedData =>
      (Except.ok cachedData,
       { st1 with performanceMonitor := st1.performanceMonitor.recordCacheHit })
    | none =>
      let st2 : FetchState :=
        { st1 with performanceMonitor :=
            (st1.performanceMonitor.recordCacheMiss).recordAPICall 0 }
      if env.isConfigLoaded = false ∨ env.alphaVantageKey = "" then
        if allowMockData = false then
          (Except.error "API configuration not available and mock data not allowed", st2)
        else
          let mockData := generateMockStockData symbol r1 r2 now
          (Except.ok mockData,
           { st2 with cacheManager :=
               (st2.cacheManager.set cacheKey (some mockData) now
                 APP_CONSTANTS.MOCK_DURATION).2 })
      else if env.hasConfigLoader = true ∧ env.isDemoMode = true then
        let mockData := generateMockStockData symbol r1 r2 now
        (Except.ok mockData,
         { st2 with cacheManager :=
             (st2.cacheManager.set cacheKey (some mockData) now
               APP_CONSTANTS.MOCK_DURATION).2 })
      else
        match remote with
        | RemoteOutcome.transportError message => (Except.error message, st2)
        | RemoteOutcome.badStatus status statusText =>
          (Except.error ("API request failed: " ++ toString status ++ " " ++ statusText),
           st2)
        | RemoteOutcome.payload none =>
          if allowMockData = false then
            (Except.error "Invalid stock symbol or API limit reached", st2)
          else
            let mockData :=
              { generateMockStockData symbol r1 r2 now with
                  isMockData := true, source := some "api_fallback" }
            (Except.ok mockData,
             { st2 with cacheManager :=
                 (st2.cacheManager.set cacheKey (some mockData) now
                   APP_CONSTANTS.MOCK_DURATION).2 })
        | RemoteOutcome.payload (some quote) =>
          let stockInfo : StockInfo :=
            { symbol := sanitizeInput quote.symbol 50
              price := quote.price
              change := quote.change
              changePercent := quote.changePercent
              lastUpdated := now
              isMockData := false
              source := none
              errorReason := none }
          if stockInfo.price ≤ 0 then
            (Except.error "Invalid price data received", st2)
          else
            let st3 : FetchState :=
              { st2 with cacheManager :=
                  (st2.cacheManager.set cacheKey (some stockInfo) now
                    APP_CONSTANTS.STOCK_DURATION).2 }
            (Except.ok stockInfo,
             { st3 with performanceMonitor :=
                 st3.performanceMonitor.recordAPIResponseTime fetchTime })

/-- `fetchStockData(symbol, allowMockData)`: the `try` body above wrapped by
the `catch` handler, which records the error, re-throws when mock data is not
allowed, and otherwise returns mock data tagged with the error message and
cached under the short error duration. -/
def fetchStockData (st : FetchState) (symbol : String) (allowMockData : Bool)
    (env : FetchEnv) (remote : RemoteOutcome) (now : Int) (r1 r2 : ℚ)
    (fetchTime : ℚ) : Except String StockInfo × FetchState :=
  match fetchStockDataTry st symbol allowMockData env remote now r1 r2 fetchTime with
  | (Except.ok value, st1) => (Except.ok value, st1)
  | (Except.error message, st1) =>
    let st2 : FetchState :=
      { st1 with performanceMonitor := st1.performanceMonitor.recordError message }
    if allowMockData = false then
      (Except.error message, st2)
    else
      let mockData :=
        { generateMockStockData symbol r1 r2 now with
            isMockData := true, errorReason := some message }
      (Except.ok mockData,
       { st2 with cacheManager :=
           (st2.cacheManager.set ("stock_" ++ symbol) (some mockData) now
             APP_CONSTANTS.ERROR_DURATION).2 })

/-- Whether a fetch result is a fulfilled promise (no exception escaped). -/
def isOkResult (r : Except String StockInfo) : Bool :=
  match r with
  | Except.ok _ => true
  | Except.error _ => false

/-- The `errorReason` field of a fulfilled fetch result. -/
def payloadErrorReason (r : Except String StockInfo) : Option String :=
  match r with
  | Except.ok v => v.errorReason
  | Except.error _ => none

/-- The `isMockData` field of a fulfilled fetch result. -/
def payloadIsMock (r : Except String StockInfo) : Bool :=
  match r with
  | Except.ok v => v.isMockData
  | Except.error _ => false

/-- The `source` field of a fulfilled fetch result. -/
def payloadSource (r : Except String StockInfo) : Option String :=
  match r with
  | Except.ok v => v.source
  | Except.error _ => none

/-- The `price` field of a fulfilled fetch result. -/
def payloadPrice (r : Except String StockInfo) : Option ℚ :=
  match r with
  | Except.ok v => some v.price
  | Except.error _ => none

/-! ### Fetch-level helper lemmas -/

theorem stock_key_ne_empty (symbol : String) : ("stock_" ++ symbol) ≠ "" := by
  intro h
  have hl := congrArg String.length h
  rw [String.length_append] at hl
  have h6 : ("stock_" : String).length = 6 := rfl
  have h0 : ("" : String).length = 0 := rfl
  omega

theorem set_lookups {α : Type} (c : CacheManager α) (key : String) (v : α)
    (now d : Int) (hk : key ≠ "") :
    mlookup (c.set key (some v) now d).2.cache key = some v ∧
    mlookup (c.set key (some v) now d).2.timestamps key = some (now + d) := by
  rw [CacheManager.set, if_neg hk]
  exact ⟨mlookup_mset_self _ _ _, mlookup_mset_self _ _ _⟩

theorem enforceMaxSizeAux_counters {α : Type} (fuel : Nat) (c : CacheManager α) :
    (CacheManager.enforceMaxSizeAux fuel c).hitCount = c.hitCount ∧
    (CacheManager.enforceMaxSizeAux fuel c).missCount = c.missCount := by
  induction fuel generalizing c with
  | zero => exact ⟨rfl, rfl⟩
  | succ n ih =>
    rw [CacheManager.enforceMaxSizeAux]
    by_cases hsz : c.maxSize ≤ c.cache.length
    · rw [if_pos hsz]
      cases hh : c.cache.head? with
      | none => exact ⟨rfl, rfl⟩
      | some kv =>
        by_cases hk : kv.1 = ""
        · simp [hk]
        · simp only [hk, if_false]
          have hd := CacheManager.delete_counters c kv.1
          have hi := ih (c.delete kv.1).2
          exact ⟨hi.1.trans hd.1, hi.2.trans hd.2⟩
    · rw [if_neg hsz]
      exact ⟨rfl, rfl⟩

theorem set_counters {α : Type} (c : CacheManager α) (key : String)
    (value : Option α) (now d : Int) :
    (c.set key value now d).2.hitCount = c.hitCount ∧
    (c.set key value now d).2.missCount = c.missCount := by
  cases value with
  | none => exact ⟨rfl, rfl⟩
  | some v =>
    rw [CacheManager.set]
    by_cases hk : key = ""
    · rw [if_pos hk]
      exact ⟨rfl, rfl⟩
    · rw [if_neg hk]
      exact enforceMaxSizeAux_counters _ c

theorem basePrices_ge_50 {s : String} {p : ℚ} (h : basePrices s = some p) :
    50 ≤ p := by
  rw [basePrices] at h
  split_ifs at h <;> cases h <;> norm_num

theorem toFixed2_pos {x : ℚ} (hx : 50 ≤ x) : 0 < toFixed2 x := by
  have h1 : (5000 : Int) ≤ jsRound (x * 100) := by
    rw [jsRound]
    apply Int.le_floor.mpr
    push_cast
    linarith
  rw [toFixed2]
  have h2 : (5000 : ℚ) ≤ ((jsRound (x * 100) : Int) : ℚ) := by exact_mod_cast h1
  linarith

theorem mock_price_pos (symbol : String) (r1 r2 : ℚ) (now : Int) (hr1 : 0 ≤ r1) :
    0 < (generateMockStockData symbol r1 r2 now).price := by
  rw [generateMockStockData]
  cases hb : basePrices symbol with
  | none =>
    simp only [hb]
    exact toFixed2_pos (by linarith [mul_nonneg hr1 (by norm_num : (0:ℚ) ≤ 400)])
  | some p =>
    simp only [hb]
    exact toFixed2_pos (basePrices_ge_50 hb)

/-- C6: for every valid identifier, on a cache miss with no remote
configuration or credentials available (config not loaded, or the Alpha
Vantage key falsy), `fetchStockData` with `permitSynthetic = false` fails with
the configuration-unavailable error, and with `permitSynthetic = true` returns
synthetic data with a strictly positive payload value, cached under the
fallback (mock) duration. -/
theorem claim_C6 (st : FetchState) (symbol : String) (env : FetchEnv)
    (remote : RemoteOutcome) (now : Int) (r1 r2 fetchTime : ℚ)
    (hval : validateStockSymbol symbol = true)
    (hmiss : (st.cacheManager.get ("stock_" ++ symbol) now).1 = none)
    (hconf : env.isConfigLoaded = false ∨ env.alphaVantageKey = "")
    (hr1 : 0 ≤ r1) :
    (fetchStockData st symbol false env remote now r1 r2 fetchTime).1
      = Except.error "API configuration not available and mock data not allowed" ∧
    isOkResult (fetchStockData st symbol true env remote now r1 r2 fetchTime).1
      = true ∧
    payloadIsMock (fetchStockData st symbol true env remote now r1 r2 fetchTime).1
      = true ∧
    (∀ p, payloadPrice (fetchStockData st symbol true env remote now r1 r2 fetchTime).1
        = some p → 0 < p) ∧
    mlookup
      (fetchStockData st symbol true env remote now r1 r2 fetchTime).2.cacheManager.timestamps
      ("stock_" ++ symbol) = some (now + APP_CONSTANTS.MOCK_DURATION) := by
  have hvalne : ¬(validateStockSymbol symbol = false) := by simp [hval]
  have htryf : fetchStockDataTry st symbol false env remote now r1 r2 fetchTime
      = (Except.error "API configuration not available and mock data not allowed",
         { st with
             cacheManager := (st.cacheManager.get ("stock_" ++ symbol) now).2,
             performanceMonitor :=
               (st.performanceMonitor.recordCacheMiss).recordAPICall 0 }) := by
    rw [fetchStockDataTry, if_neg hvalne]
    simp only [hmiss]
    rw [if_pos hconf]
    rfl
  have htryt : fetchStockDataTry st symbol true env remote now r1 r2 fetchTime
      = (Except.ok (generateMockStockData symbol r1 r2 now),
         { st with
             cacheManager :=
               ((st.cacheManager.get ("stock_" ++ symbol) now).2.set
                 ("stock_" ++ symbol) (some (generateMockStockData symbol r1 r2 now))
                 now APP_CONSTANTS.MOCK_DURATION).2,
             performanceMonitor :=
               (st.performanceMonitor.recordCacheMiss).recordAPICall 0 }) := by
    rw [fetchStockDataTry, if_neg hvalne]
    simp only [hmiss]
    rw [if_pos hconf]
    rfl
  have hrunf : (fetchStockData st symbol false env remote now r1 r2 fetchTime).1
      = Except.error "API configuration not available and mock data not allowed" := by
    rw [fetchStockData, htryf]
    rfl
  have hrunt : fetchStockData st symbol true env remote now r1 r2 fetchTime
      = (Except.ok (generateMockStockData symbol r1 r2 now),
         { st with
             cacheManager :=
               ((st.cacheManager.get ("stock_" ++ symbol) now).2.set
                 ("stock_" ++ symbol) (some (generateMockStockData symbol r1 r2 now))
                 now APP_CONSTANTS.MOCK_DURATION).2,
             performanceMonitor :=
               (st.performanceMonitor.recordCacheMiss).recordAPICall 0 }) := by
    rw [fetchStockData, htryt]
  refine ⟨hrunf, ?_, ?_, ?_, ?_⟩
  · rw [hrunt]
    rfl
  · rw [hrunt]
    rfl
  · rw [hrunt]
    intro p hp
    have hp2 : p = (generateMockStockData symbol r1 r2 now).price := by
      rw [payloadPrice] at hp
      exact (Option.some_inj.mp hp).symm
    rw [hp2]
    exact mock_price_pos symbol r1 r2 now hr1
  · rw [hrunt]
    exact (set_lookups _ _ _ _ _ (stock_key_ne_empty symbol)).2

/-- C6 witness: a fresh state with no configuration; fetching AAPL with
`permitSynthetic = true` yields a fulfilled result. -/
theorem claim_C6_witness :
    isOkResult (fetchStockData ⟨emptyCache StockInfo 100, ⟨0, 0, 0, 0, [], 0, []⟩⟩
        "AAPL" true ⟨false, "", false, false⟩ (RemoteOutcome.payload none)
        0 0 0 0).1 = true :=
  (claim_C6 ⟨emptyCache StockInfo 100, ⟨0, 0, 0, 0, [], 0, []⟩⟩ "AAPL"
      ⟨false, "", false, false⟩ (RemoteOutcome.payload none) 0 0 0 0
      (by decide) rfl (Or.inl rfl) (le_refl 0)).2.1

/-- C1 counterexample: the empty string fails the identifier predicate, yet
`fetchStockData("", true)` on a fresh state returns a fulfilled synthetic
result (not a terminal failure) and writes one entry into the cache: the
invalid-symbol `throw` happens inside the `try`, so the `catch` path treats it
like any other error when mock data is permitted. -/
theorem claim_C1_counterexample :
    isOkResult (fetchStockData ⟨emptyCache StockInfo 100, ⟨0, 0, 0, 0, [], 0, []⟩⟩
        "" true ⟨false, "", false, false⟩ (RemoteOutcome.payload none)
        0 0 0 0).1 = true ∧
    (fetchStockData ⟨emptyCache StockInfo 100, ⟨0, 0, 0, 0, [], 0, []⟩⟩
        "" true ⟨false, "", false, false⟩ (RemoteOutcome.payload none)
        0 0 0 0).2.cacheManager.cache.length = 1 := by
  constructor
  · rfl
  · rfl

/-- C1 (amended): for every identifier failing the identifier-format
predicate, `fetchStockData` never consults the remote source (the result does
not depend on the remote outcome), never reads the cache (the cache's hit and
miss counters are untouched), never records a cache hit or miss, and never
increments the API-call counter; it records one error.  With
`permitSynthetic = false` it returns the terminal invalid-symbol failure and
leaves the cache untouched; with `permitSynthetic = true` the `catch` handler
instead returns synthetic data tagged with the invalid-symbol message and
writes it into the cache under the error duration. -/
theorem claim_C1 (st : FetchState) (symbol : String) (env : FetchEnv)
    (remote remote2 : RemoteOutcome) (now : Int) (r1 r2 fetchTime : ℚ)
    (hinv : validateStockSymbol symbol = false) :
    (∀ allow : Bool,
       fetchStockData st symbol allow env remote now r1 r2 fetchTime
         = fetchStockData st symbol allow env remote2 now r1 r2 fetchTime ∧
       (fetchStockData st symbol allow env remote now r1 r2 fetchTime).2.cacheManager.hitCount
         = st.cacheManager.hitCount ∧
       (fetchStockData st symbol allow env remote now r1 r2 fetchTime).2.cacheManager.missCount
         = st.cacheManager.missCount ∧
       (fetchStockData st symbol allow env remote now r1 r2 fetchTime).2.performanceMonitor.apiCalls
         = st.performanceMonitor.apiCalls ∧
       (fetchStockData st symbol allow env remote now r1 r2 fetchTime).2.performanceMonitor.cacheHits
         = st.performanceMonitor.cacheHits ∧
       (fetchStockData st symbol allow env remote now r1 r2 fetchTime).2.performanceMonitor.cacheMisses
         = st.performanceMonitor.cacheMisses ∧
       (fetchStockData st symbol allow env remote now r1 r2 fetchTime).2.performanceMonitor.errors
         = st.performanceMonitor.errors + 1) ∧
    ((fetchStockData st symbol false env remote now r1 r2 fetchTime).1
       = Except.error "Invalid stock symbol provided" ∧
     (fetchStockData st symbol false env remote now r1 r2 fetchTime).2.cacheManager
       = st.cacheManager) ∧
    (isOkResult (fetchStockData st symbol true env remote now r1 r2 fetchTime).1
       = true ∧
     payloadIsMock (fetchStockData st symbol true env remote now r1 r2 fetchTime).1
       = true ∧
     payloadErrorReason (fetchStockData st symbol true env remote now r1 r2 fetchTime).1
       = some "Invalid stock symbol provided" ∧
     mlookup
       (fetchStockData st symbol true env remote now r1 r2 fetchTime).2.cacheManager.timestamps
       ("stock_" ++ symbol) = some (now + APP_CONSTANTS.ERROR_DURATION)) := by
  have htry : ∀ (allow : Bool) (rm : RemoteOutcome),
      fetchStockDataTry st symbol allow env rm now r1 r2 fetchTime
        = (Except.error "Invalid stock symbol provided", st) := by
    intro allow rm
    rw [fetchStockDataTry, if_pos hinv]
  have hrunf : ∀ rm : RemoteOutcome,
      fetchStockData st symbol false env rm now r1 r2 fetchTime
        = (Except.error "Invalid stock symbol provided",
           { st with performanceMonitor :=
               st.performanceMonitor.recordError "Invalid stock symbol provided" }) := by
    intro rm
    rw [fetchStockData, htry false rm]
    rfl
  have hrunt : ∀ rm : RemoteOutcome,
      fetchStockData st symbol true env rm now r1 r2 fetchTime
        = (Except.ok
             { generateMockStockData symbol r1 r2 now with
                 isMockData := true,
                 errorReason := some "Invalid stock symbol provided" },
           { cacheManager :=
               (st.cacheManager.set ("stock_" ++ symbol)
                 (some { generateMockStockData symbol r1 r2 now with
                           isMockData := true,
                           errorReason := some "Invalid stock symbol provided" })
                 now APP_CONSTANTS.ERROR_DURATION).2,
             performanceMonitor :=
               st.performanceMonitor.recordError "Invalid stock symbol provided" }) := by
    intro rm
    rw [fetchStockData, htry true rm]
    rfl
  refine ⟨?_, ?_, ?_⟩
  · intro allow
    cases allow with
    | false =>
      rw [hrunf remote, hrunf remote2]
      exact ⟨rfl, rfl, rfl, rfl, rfl, rfl, rfl⟩
    | true =>
      rw [hrunt remote, hrunt remote2]
      have hc := set_counters st.cacheManager ("stock_" ++ symbol)
        (some { generateMockStockData symbol r1 r2 now with
                  isMockData := true,
                  errorReason := some "Invalid stock symbol provided" })
        now APP_CONSTANTS.ERROR_DURATION
      exact ⟨rfl, hc.1, hc.2, rfl, rfl, rfl, rfl⟩
  · rw [hrunf remote]
    exact ⟨rfl, rfl⟩
  · rw [hrunt remote]
    refine ⟨rfl, rfl, rfl, ?_⟩
    exact (set_lookups _ _ _ _ _ (stock_key_ne_empty symbol)).2


/-- C1 witness: the empty identifier with `permitSynthetic = true` yields a
synthetic result tagged with the invalid-symbol message. -/
theorem claim_C1_witness :
    payloadErrorReason (fetchStockData ⟨emptyCache StockInfo 100, ⟨0, 0, 0, 0, [], 0, []⟩⟩
        "" true ⟨false, "", false, false⟩ (RemoteOutcome.payload none) 0 0 0 0).1
      = some "Invalid stock symbol provided" :=
  (claim_C1 ⟨emptyCache StockInfo 100, ⟨0, 0, 0, 0, [], 0, []⟩⟩ ""
      ⟨false, "", false, false⟩ (RemoteOutcome.payload none) (RemoteOutcome.payload none)
      0 0 0 0 (by decide)).2.2.2.2.1

/-- C4 counterexample: a soft remote failure (HTTP 200 with an empty
`Global Quote`, e.g. rate limiting) with `permitSynthetic = true`: the claim
requires the synthetic result to carry the failure reason and to be cached
under the error duration, but the code leaves `errorReason` unset and caches
under the 30000ms mock (fallback) duration, which is not shorter than
itself. -/
theorem claim_C4_counterexample :
    payloadErrorReason (fetchStockData ⟨emptyCache StockInfo 100, ⟨0, 0, 0, 0, [], 0, []⟩⟩
        "AAPL" true ⟨true, "key", true, false⟩ (RemoteOutcome.payload none)
        0 0 0 0).1 = none ∧
    mlookup (fetchStockData ⟨emptyCache StockInfo 100, ⟨0, 0, 0, 0, [], 0, []⟩⟩
        "AAPL" true ⟨true, "key", true, false⟩ (RemoteOutcome.payload none)
        0 0 0 0).2.cacheManager.timestamps "stock_AAPL" = some 30000 ∧
    ¬((30000 : Int) = 0 + APP_CONSTANTS.ERROR_DURATION) := by
  refine ⟨?_, ?_, ?_⟩
  · rfl
  · rfl
  · decide

/-- C4 (amended): for a valid identifier on a cache miss in configured,
non-demo mode: a hard remote failure (rejected promise such as a timeout or
transport error, or a non-2xx status) with `permitSynthetic = true` returns
synthetic data tagged with the failure reason and caches it under the error
duration, which is strictly shorter than the fallback duration; a soft
failure (empty/invalid payload) with `permitSynthetic = true` instead returns
synthetic data marked `source = "api_fallback"` with no failure reason,
cached under the fallback duration; with `permitSynthetic = false` every
failure propagates with the underlying reason. -/
theorem claim_C4 (st : FetchState) (symbol : String) (env : FetchEnv)
    (now : Int) (r1 r2 fetchTime : ℚ)
    (hval : validateStockSymbol symbol = true)
    (hmiss : (st.cacheManager.get ("stock_" ++ symbol) now).1 = none)
    (hconf2 : env.isConfigLoaded = true) (hkey : env.alphaVantageKey ≠ "")
    (hdemo : ¬(env.hasConfigLoader = true ∧ env.isDemoMode = true)) :
    (∀ message : String,
       isOkResult (fetchStockData st symbol true env
           (RemoteOutcome.transportError message) now r1 r2 fetchTime).1 = true ∧
       payloadIsMock (fetchStockData st symbol true env
           (RemoteOutcome.transportError message) now r1 r2 fetchTime).1 = true ∧
       payloadErrorReason (fetchStockData st symbol true env
           (RemoteOutcome.transportError message) now r1 r2 fetchTime).1
         = some message ∧
       mlookup (fetchStockData st symbol true env
           (RemoteOutcome.transportError message) now r1 r2 fetchTime).2.cacheManager.timestamps
         ("stock_" ++ symbol) = some (now + APP_CONSTANTS.ERROR_DURATION)) ∧
    (∀ (status : Nat) (statusText : String),
       payloadErrorReason (fetchStockData st symbol true env
           (RemoteOutcome.badStatus status statusText) now r1 r2 fetchTime).1
         = some ("API request failed: " ++ toString status ++ " " ++ statusText) ∧
       mlookup (fetchStockData st symbol true env
           (RemoteOutcome.badStatus status statusText) now r1 r2 fetchTime).2.cacheManager.timestamps
         ("stock_" ++ symbol) = some (now + APP_CONSTANTS.ERROR_DURATION)) ∧
    (isOkResult (fetchStockData st symbol true env
         (RemoteOutcome.payload none) now r1 r2 fetchTime).1 = true ∧
     payloadIsMock (fetchStockData st symbol true env
         (RemoteOutcome.payload none) now r1 r2 fetchTime).1 = true ∧
     payloadErrorReason (fetchStockData st symbol true env
         (RemoteOutcome.payload none) now r1 r2 fetchTime).1 = none ∧
     payloadSource (fetchStockData st symbol true env
         (RemoteOutcome.payload none) now r1 r2 fetchTime).1 = some "api_fallback" ∧
     mlookup (fetchStockData st symbol true env
         (RemoteOutcome.payload none) now r1 r2 fetchTime).2.cacheManager.timestamps
       ("stock_" ++ symbol) = some (now + APP_CONSTANTS.MOCK_DURATION)) ∧
    (∀ message : String,
       (fetchStockData st symbol false env
           (RemoteOutcome.transportError message) now r1 r2 fetchTime).1
         = Except.error message) ∧
    (∀ (status : Nat) (statusText : String),
       (fetchStockData st symbol false env
           (RemoteOutcome.badStatus status statusText) now r1 r2 fetchTime).1
         = Except.error ("API request failed: " ++ toString status ++ " " ++ statusText)) ∧
    ((fetchStockData st symbol false env
         (RemoteOutcome.payload none) now r1 r2 fetchTime).1
       = Except.error "Invalid stock symbol or API limit reached") ∧
    APP_CONSTANTS.ERROR_DURATION < APP_CONSTANTS.MOCK_DURATION := by
  have hvalne : ¬(validateStockSymbol symbol = false) := by simp [hval]
  have hconfne : ¬(env.isConfigLoaded = false ∨ env.alphaVantageKey = "") := by
    rintro (h | h)
    · rw [hconf2] at h
      exact Bool.noConfusion h
    · exact hkey h
  have htryT : ∀ (allow : Bool) (message : String),
      fetchStockDataTry st symbol allow env (RemoteOutcome.transportError message)
          now r1 r2 fetchTime
        = (Except.error message, { st with
               cacheManager := (st.cacheManager.get ("stock_" ++ symbol) now).2,
               performanceMonitor :=
                 (st.performanceMonitor.recordCacheMiss).recordAPICall 0 }) := by
    intro allow message
    rw [fetchStockDataTry, if_neg hvalne]
    simp only [hmiss]
    rw [if_neg hconfne, if_neg hdemo]
  have htryB : ∀ (allow : Bool) (status : Nat) (statusText : String),
      fetchStockDataTry st symbol allow env (RemoteOutcome.badStatus status statusText)
          now r1 r2 fetchTime
        = (Except.error ("API request failed: " ++ toString status ++ " " ++ statusText),
           { st with
               cacheManager := (st.cacheManager.get ("stock_" ++ symbol) now).2,
               performanceMonitor :=
                 (st.performanceMonitor.recordCacheMiss).recordAPICall 0 }) := by
    intro allow status statusText
    rw [fetchStockDataTry, if_neg hvalne]
    simp only [hmiss]
    rw [if_neg hconfne, if_neg hdemo]
  have htrySf : fetchStockDataTry st symbol false env (RemoteOutcome.payload none)
          now r1 r2 fetchTime
        = (Except.error "Invalid stock symbol or API limit reached", { st with
               cacheManager := (st.cacheManager.get ("stock_" ++ symbol) now).2,
               performanceMonitor :=
                 (st.performanceMonitor.recordCacheMiss).recordAPICall 0 }) := by
    rw [fetchStockDataTry, if_neg hvalne]
    simp only [hmiss]
    rw [if_neg hconfne, if_neg hdemo]
    rfl
  have htrySt : fetchStockDataTry st symbol true env (RemoteOutcome.payload none)
          now r1 r2 fetchTime
        = (Except.ok
             { generateMockStockData symbol r1 r2 now with
                 isMockData := true, source := some "api_fallback" },
           { st with
               cacheManager :=
                 ((st.cacheManager.get ("stock_" ++ symbol) now).2.set
                   ("stock_" ++ symbol)
                   (some { generateMockStockData symbol r1 r2 now with
                             isMockData := true, source := some "api_fallback" })
                   now APP_CONSTANTS.MOCK_DURATION).2,
               performanceMonitor :=
                 (st.performanceMonitor.recordCacheMiss).recordAPICall 0 }) := by
    rw [fetchStockDataTry, if_neg hvalne]
    simp only [hmiss]
    rw [if_neg hconfne, if_neg hdemo]
    rfl
  have hrunT : ∀ message : String,
      fetchStockData st symbol true env (RemoteOutcome.transportError message)
          now r1 r2 fetchTime
        = (Except.ok
             { generateMockStockData symbol r1 r2 now with
                 isMockData := true, errorReason := some message },
           { cacheManager :=
               ((st.cacheManager.get ("stock_" ++ symbol) now).2.set
                 ("stock_" ++ symbol)
                 (some { generateMockStockData symbol r1 r2 now with
                           isMockData := true, errorReason := some message })
                 now APP_CONSTANTS.ERROR_DURATION).2,
             performanceMonitor :=
               ((st.performanceMonitor.recordCacheMiss).recordAPICall 0).recordError
                 message }) := by
    intro message
    rw [fetchStockData, htryT true message]
    rfl
  have hrunB : ∀ (status : Nat) (statusText : String),
      fetchStockData st symbol true env (RemoteOutcome.badStatus status statusText)
          now r1 r2 fetchTime
        = (Except.ok
             { generateMockStockData symbol r1 r2 now with
                 isMockData := true,
                 errorReason :=
                   some ("API request failed: " ++ toString status ++ " " ++ statusText) },
           { cacheManager :=
               ((st.cacheManager.get ("stock_" ++ symbol) now).2.set
                 ("stock_" ++ symbol)
                 (some { generateMockStockData symbol r1 r2 now with
                           isMockData := true,
                           errorReason :=
                             some ("API request failed: " ++ toString status ++ " "
                               ++ statusText) })
                 now APP_CONSTANTS.ERROR_DURATION).2,
             performanceMonitor :=
               ((st.performanceMonitor.recordCacheMiss).recordAPICall 0).recordError
                 ("API request failed: " ++ toString status ++ " " ++ statusText) }) := by
    intro status statusText
    rw [fetchStockData, htryB true status statusText]
    rfl
  have hrunSt : fetchStockData st symbol true env (RemoteOutcome.payload none)
          now r1 r2 fetchTime
        = (Except.ok
             { generateMockStockData symbol r1 r2 now with
                 isMockData := true, source := some "api_fallback" },
           { st with
               cacheManager :=
                 ((st.cacheManager.get ("stock_" ++ symbol) now).2.set
                   ("stock_" ++ symbol)
                   (some { generateMockStockData symbol r1 r2 now with
                             isMockData := true, source := some "api_fallback" })
                   now APP_CONSTANTS.MOCK_DURATION).2,
               performanceMonitor :=
                 (st.performanceMonitor.recordCacheMiss).recordAPICall 0 }) := by
    rw [fetchStockData, htrySt]
  refine ⟨?_, ?_, ?_, ?_, ?_, ?_, by decide⟩
  · intro message
    rw [hrunT message]
    exact ⟨rfl, rfl, rfl, (set_lookups _ _ _ _ _ (stock_key_ne_empty symbol)).2⟩
  · intro status statusText
    rw [hrunB status statusText]
    exact ⟨rfl, (set_lookups _ _ _ _ _ (stock_key_ne_empty symbol)).2⟩
  · rw [hrunSt]
    exact ⟨rfl, rfl, rfl, rfl, (set_lookups _ _ _ _ _ (stock_key_ne_empty symbol)).2⟩
  · intro message
    rw [fetchStockData, htryT false message]
    rfl
  · intro status statusText
    rw [fetchStockData, htryB false status statusText]
    rfl
  · rw [fetchStockData, htrySf]
    rfl

/-- C4 witness: a timeout on a fresh configured state with
`permitSynthetic = true` yields a synthetic result tagged with the timeout
message. -/
theorem claim_C4_witness :
    payloadErrorReason (fetchStockData ⟨emptyCache StockInfo 100, ⟨0, 0, 0, 0, [], 0, []⟩⟩
        "AAPL" true ⟨true, "key", true, false⟩
        (RemoteOutcome.transportError "The operation timed out") 0 0 0 0).1
      = some "The operation timed out" :=
  ((claim_C4 ⟨emptyCache StockInfo 100, ⟨0, 0, 0, 0, [], 0, []⟩⟩ "AAPL"
      ⟨true, "key", true, false⟩ 0 0 0 0 (by decide) rfl rfl (by decide)
      (by decide)).1 "The operation timed out").2.2.1
